import Mathlib

/-!
Verification of `flask-with-glasses` (a small Flask convenience wrapper).

Shallow embedding of the repository's own logic:
  * `src/flask_with_glasses/core.py` — the default-configuration table, the
    configuration merge performed in `EnhancedApp.__init__`, the folder
    scaffolder (`create_folder_structure` / `_create_path`) and the asset
    registrar (`enhance_assets`, `add_js_asset`, `add_css_asset`), jinja
    enhancement and the livereload launcher.
  * `src/build/lib/flask_with_glasses/utils.py` — `gen_slug`,
    `format_currency`, `format_datetime`, `next_year` and their helpers.

External collaborators (Python's `str` methods, `dict`, `os.path`, `glob`,
`unicodedata`, `datetime`, Flask's `Config`, webassets' `Environment`) are
modelled at their interface, with the modelling choices documented next to
each definition.  Python strings are Lean `String`s (lists of unicode
characters); Python `dict`s are insertion-ordered association lists, which is
exactly the iteration/update semantics of CPython dicts.
-/

/-! ### Characters and strings

Python's `str.lower`, `str.isupper`, `str.startswith` and slicing, modelled on
the character-list representation.  The case mappings are the ASCII fragment
(every configuration key handled by the code is ASCII). -/

/-- ASCII lowering of one character: models what Python's `str.lower` does to
an ASCII character (other characters in our key alphabet are untouched). -/
def pyLowerChar (c : Char) : Char :=
  if 65 ≤ c.toNat ∧ c.toNat ≤ 90 then Char.ofNat (c.toNat + 32) else c

/-- Models Python's `str.lower()` on ASCII strings. -/
def pyLowerStr (s : String) : String :=
  String.mk (s.data.map pyLowerChar)

/-- Models Python's `str.isupper()`: at least one cased character and no
lowercase cased character (ASCII fragment). -/
def pyIsUpperStr (s : String) : Bool :=
  s.data.any (fun c => c.isUpper || c.isLower) && s.data.all (fun c => !c.isLower)

/-- Models Python's `str.startswith(pre)`. -/
def strStarts (s pre : String) : Bool :=
  pre.data.isPrefixOf s.data

/-- Models Python's slicing `s[n:]`. -/
def strDropLeft (s : String) (n : Nat) : String :=
  String.mk (s.data.drop n)

/-! ### Python dicts as insertion-ordered association lists

CPython dicts preserve insertion order; assignment to an existing key keeps
its position, assignment to a fresh key appends.  Lookup is `List.lookup`
(keys are unique in every dict the code builds, which we track where it
matters). -/

/-- Models `d[k] = v` on a Python dict. -/
def dictInsert {α : Type} (d : List (String × α)) (k : String) (v : α) :
    List (String × α) :=
  if (List.lookup k d).isSome then
    d.map (fun p => if p.1 = k then (k, v) else p)
  else
    d ++ [(k, v)]

/-- Models `d.setdefault(k, v)` on a Python dict. -/
def dictSetdefault {α : Type} (d : List (String × α)) (k : String) (v : α) :
    List (String × α) :=
  if (List.lookup k d).isSome then d else d ++ [(k, v)]

/-! ### Configuration values

`core.py`'s `default_config` stores strings, booleans, lists of strings,
string-to-string dicts, the JS-asset descriptor list, and lists of
`%(key)s`-style template strings.  A template string is embedded as the
alternating sequence of its literal pieces and `%(key)s` references, e.g.
`'%(prefix)sstatic/'` becomes `[.var "prefix", .lit "static/"]`. -/

/-- The second component of a JS asset descriptor: either a glob pattern
(a Python string) or an explicit list of files. -/
inductive JsInput where
  | pat (p : String)
  | files (fs : List String)
  deriving DecidableEq

/-- One piece of a `%(key)s`-style template string. -/
inductive TPart where
  | lit (s : String)
  | var (k : String)
  deriving DecidableEq

/-- A `%(key)s`-style template string, split into its pieces. -/
abbrev Template := List TPart

/-- A value in the configuration dict. -/
inductive ConfigVal where
  | str (s : String)
  | bool (b : Bool)
  | strList (l : List String)
  | strMap (m : List (String × String))
  | jsAssetList (l : List (String × JsInput))
  | tplList (l : List Template)
  deriving DecidableEq

/-- Transcription of `default_config` from `src/flask_with_glasses/core.py`
lines 14-65. -/
def default_config : List (String × ConfigVal) := [
  ("EA_BOWER_FOLDER", .str "bower_components"),
  ("EA_SCSS_FOLDER", .str "scss"),
  ("EA_JS_SRC_FOLDER", .str "js_src"),
  ("EA_TEMPLATES_FOLDER", .str "templates"),
  ("EA_PREFIX", .str ""),
  ("EA_JINJA_FILTERS", .strMap [
    ("breaks", "add_br"),
    ("copyright", "copyright_year"),
    ("currency", "format_currency"),
    ("date", "format_date"),
    ("datetime", "format_datetime"),
    ("http", "add_http"),
    ("https", "add_https"),
    ("leading_zero", "leading_zero"),
    ("paragraphs", "add_p"),
    ("no_breaks", "remove_linebreaks"),
    ("slug", "gen_slug")]),
  ("EA_JINJA_FUNCTIONS", .strMap [
    ("next_year", "next_year"),
    ("random_string", "random_string"),
    ("gen_years", "relative_years")]),
  ("EA_JINJA_CONTEXT", .strMap [("highlight", "highlight_link")]),
  ("EA_FOLDER_STRUCTURE", .tplList [
    [.var "prefix", .lit "static/"],
    [.var "prefix", .lit "static/", .var "scss_folder", .lit "/styles.scss"],
    [.var "prefix", .lit "static/"],
    [.var "prefix", .lit "static/", .var "js_src_folder", .lit "/Main.js"],
    [.var "prefix", .lit "static/images/"],
    [.var "prefix", .lit "static/fonts/"],
    [.var "prefix", .var "templates_folder", .lit "/"]]),
  ("EA_JS_LIBS", .strList ["jquery/dist/jquery.min.js"]),
  ("EA_SCSS_LIBS", .strList ["bootstrap/scss"]),
  ("EA_JS_ASSETS", .jsAssetList [("scripts.js", .pat "*.js")]),
  ("EA_CSS_ASSETS", .strList ["styles.scss"]),
  ("EA_FILTER_JSMIN", .bool false),
  ("EA_FILTER_AUTOPREFIXER", .bool false),
  ("EA_FILTER_BABEL", .bool false),
  ("EA_BABEL_PRESETS", .str "/usr/local/lib/node_modules/babel-preset-es2015"),
  ("EA_LIVERELOAD_WATCH_FILES", .tplList [
    [.var "prefix", .lit "static/", .var "scss_folder", .lit "/*.scss"],
    [.var "prefix", .lit "static/", .var "js_src_folder", .lit "/*.js"],
    [.var "prefix", .var "templates_folder", .lit "/*.html"]])]

/-! ### Configuration merge (`EnhancedApp.__init__`, core.py lines 73-81)

```python
config = Config('.', Flask.default_config)
if config_file:
    config.from_object(config_file)
for k, v in default_config.items():
    config.setdefault(k, v)
self.config = config.get_namespace('EA_')
```
`Config.from_object` copies each attribute whose name `isupper()`;
`Config.get_namespace('EA_')` collects every key starting with `'EA_'` into a
fresh dict, with the key stripped of the `'EA_'` and lowercased. -/

/-- Models Flask's `Config.from_object`: for each attribute of the caller's
configuration object (in iteration order) whose name is uppercase, assign it
into the dict. -/
def from_object (d caller : List (String × ConfigVal)) : List (String × ConfigVal) :=
  caller.foldl (fun acc p => if pyIsUpperStr p.1 then dictInsert acc p.1 p.2 else acc) d

/-- The `config.setdefault(k, v)` loop over the default table. -/
def mergeDefaults (d dfl : List (String × ConfigVal)) : List (String × ConfigVal) :=
  dfl.foldl (fun acc p => dictSetdefault acc p.1 p.2) d

/-- The namespaced key a configuration key is exposed under: strip the
3-character `'EA_'` and lowercase (Flask's `Config.get_namespace`). -/
def nsKey (k : String) : String :=
  pyLowerStr (strDropLeft k 3)

/-- Models Flask's `Config.get_namespace(ns)`: iterate the dict, keep the keys
starting with `ns`, strip the namespace from the key and lowercase it. -/
def get_namespace (ns : String) (d : List (String × ConfigVal)) : List (String × ConfigVal) :=
  d.foldl
    (fun rv p =>
      if strStarts p.1 ns then
        dictInsert rv (pyLowerStr (strDropLeft p.1 ns.data.length)) p.2
      else rv)
    []

/-- The merged effective configuration built in `EnhancedApp.__init__`:
Flask's built-in defaults, overlaid by the caller-supplied configuration,
with `default_config` applied via `setdefault`, exposed under the stripped,
lowercased `EA_` namespace. -/
def effective_config (flaskDefaults caller : List (String × ConfigVal)) :
    List (String × ConfigVal) :=
  get_namespace "EA_" (mergeDefaults (from_object flaskDefaults caller) default_config)

/-! Accessors for the effective configuration.  The default table guarantees
every key the code reads is present with the right value shape; the fallback
of each accessor is unreachable for configurations produced by
`effective_config`. -/

/-- Read a string-valued entry of the effective configuration. -/
def cfgStr (cfg : List (String × ConfigVal)) (k : String) : String :=
  match List.lookup k cfg with
  | some (.str s) => s
  | _ => ""

/-- Read a boolean entry of the effective configuration. -/
def cfgBool (cfg : List (String × ConfigVal)) (k : String) : Bool :=
  match List.lookup k cfg with
  | some (.bool b) => b
  | _ => false

/-- Read a string-list entry of the effective configuration. -/
def cfgStrList (cfg : List (String × ConfigVal)) (k : String) : List String :=
  match List.lookup k cfg with
  | some (.strList l) => l
  | _ => []

/-- Read a string-map entry of the effective configuration. -/
def cfgStrMap (cfg : List (String × ConfigVal)) (k : String) : List (String × String) :=
  match List.lookup k cfg with
  | some (.strMap m) => m
  | _ => []

/-- Read the JS-asset descriptor list of the effective configuration. -/
def cfgJsAssets (cfg : List (String × ConfigVal)) : List (String × JsInput) :=
  match List.lookup "js_assets" cfg with
  | some (.jsAssetList l) => l
  | _ => []

/-- Read a template-list entry of the effective configuration. -/
def cfgTpls (cfg : List (String × ConfigVal)) (k : String) : List Template :=
  match List.lookup k cfg with
  | some (.tplList l) => l
  | _ => []

/-- Models `f % self.config` for one template string: substitute each
`%(key)s` reference by the configuration's string value for `key`. -/
def resolveTemplate (cfg : List (String × ConfigVal)) (t : Template) : String :=
  String.mk (t.foldr
    (fun p acc =>
      (match p with
       | .lit s => s.data
       | .var k => (cfgStr cfg k).data) ++ acc)
    [])

/-! ### Filesystem model and the folder scaffolder

`create_folder_structure` (core.py lines 120-125) iterates the resolved path
templates, breaking out of the loop as soon as one resolved path exists, and
`_create_path` (lines 232-242) creates the missing parents of a path and then
the path itself — an empty file when the string has a `'.'` after its last
separator, a directory otherwise.

The filesystem is modelled as the list of existing entries.  A path is an
absolute path stored as its list of components in reverse order (leaf first),
so that the parent produced by `os.path.abspath(os.path.join(path, os.pardir))`
is the tail of the list.  Relative strings are resolved against the working
directory exactly as `os.path.exists`/`os.mkdir`/`open` resolve them.  The
templates the scaffolder receives contain no `'.'` or `'..'` segments, so this
normalisation agrees with `os.path` on every path the code touches. -/

/-- An absolute path: components in reverse order (leaf first). -/
abbrev RPath := List String

/-- One existing filesystem entry. -/
structure FsEntry where
  path : RPath
  isFile : Bool
  deriving DecidableEq

/-- The filesystem: the entries that exist.  The root (the empty component
list) is taken to always exist, as it does on a real system. -/
abbrev Fs := List FsEntry

/-- Models `os.path.exists`. -/
def pathExists (fs : Fs) (p : RPath) : Bool :=
  fs.any (fun e => e.path == p)

/-- Split a list of characters on `'/'`. -/
def splitSlashGo (cur : List Char) : List Char → List (List Char)
  | [] => [cur.reverse]
  | c :: cs => if c = '/' then cur.reverse :: splitSlashGo [] cs else splitSlashGo (c :: cur) cs

/-- The non-empty `'/'`-separated components of a path string. -/
def pathComponents (s : String) : List String :=
  ((splitSlashGo [] s.data).map String.mk).filter (fun c => c ≠ "")

/-- Resolve a path string against the working directory `cwd` (itself an
absolute `RPath`), as `os.path` does: absolute strings stand alone, relative
strings are joined to the working directory. -/
def strToRPath (cwd : RPath) (s : String) : RPath :=
  if strStarts s "/" then (pathComponents s).reverse
  else (pathComponents s).reverse ++ cwd

/-- Index of the last occurrence of `c` in the string, `-1` when absent:
models Python's `str.rfind`. -/
def lastIdxGo (c : Char) : List Char → Nat → Int → Int
  | [], _, best => best
  | d :: ds, i, best => lastIdxGo c ds (i + 1) (if d = c then Int.ofNat i else best)

/-- Models `s.rfind(c)`. -/
def strRfind (s : String) (c : Char) : Int :=
  lastIdxGo c s.data 0 (-1)

/-- The file test of `_create_path`, applied to the original path string:
`path.rfind('.') > path.rfind(os.path.sep)`. -/
def strIsFilePath (s : String) : Bool :=
  strRfind s '.' > strRfind s '/'

/-- The same test for the parent paths `_create_path` recurses on.  Those are
produced by `os.path.abspath`, which never leaves a trailing separator, so the
test is equivalent to: the last component contains a `'.'`. -/
def rpathIsFile : RPath → Bool
  | [] => false
  | c :: _ => c.data.contains '.'

/-- Models `EnhancedApp._create_path` (core.py lines 232-242): return
unchanged when the path exists; otherwise create the missing parents
(recursively, outermost first) and then the path itself, as a file or a
directory according to the dot test.  The recursion on parents is the
`while not os.path.exists(parent): self._create_path(parent)` loop; it
bottoms out because the filesystem root exists. -/
def createPath (fs : Fs) : RPath → Bool → Fs
  | p, isf =>
    if pathExists fs p then fs
    else
      let fs' := match p with
        | [] => fs
        | _ :: parent =>
          if pathExists fs parent then fs else createPath fs parent (rpathIsFile parent)
      ⟨p, isf⟩ :: fs'

/-- The loop body of `create_folder_structure` (core.py lines 120-125): for
each template in order, resolve it; `break` as soon as a resolved path
exists, otherwise create it. -/
def cfsLoop (cwd : RPath) (cfg : List (String × ConfigVal)) : Fs → List Template → Fs
  | fs, [] => fs
  | fs, t :: ts =>
    if pathExists fs (strToRPath cwd (resolveTemplate cfg t)) then fs
    else
      cfsLoop cwd cfg
        (createPath fs (strToRPath cwd (resolveTemplate cfg t))
          (strIsFilePath (resolveTemplate cfg t)))
        ts

/-- Models `EnhancedApp.create_folder_structure`. -/
def create_folder_structure (cwd : RPath) (cfg : List (String × ConfigVal)) (fs : Fs) : Fs :=
  cfsLoop cwd cfg fs (cfgTpls cfg "folder_structure")

/-! ### The asset registrar and the wrapper state

`EnhancedApp` keeps the effective configuration, the pre-computed source
paths, the filter chains, the per-category registration-order lists and the
webassets environment.  `env.register(name, bundle)` is recorded as the
ordered log of registrations.  `glob.glob` is an oracle parameter (its result
order is what the OS reports — Python promises no order). -/

/-- A webassets filter, as built by `get_filter`. -/
inductive AssetFilter where
  | jsmin
  | babel (presets : String)
  | libsass (includes : List String)
  | autoprefixer (binary : String) (browsers : String)
  deriving DecidableEq

/-- A webassets `Bundle`. -/
structure Bundle where
  contents : List String
  output : String
  filters : List AssetFilter
  depends : List String
  deriving DecidableEq

/-- The mutable state of an `EnhancedApp` (the fields the embedded methods
read or write). -/
structure AppState where
  config : List (String × ConfigVal)
  cwd : String
  scss_path : String
  js_src_path : String
  bower_path : String
  js_filters : List AssetFilter
  css_filters : List AssetFilter
  depends_scss : List String
  js_asset_names : List String
  css_asset_names : List String
  registered : List (String × Bundle)
  jinja_extensions : List String
  jinja_filters : List (String × String)
  jinja_globals : List (String × String)
  context_processors : List (List (String × String))
  error_handlers : List Nat
  app_debug : Bool
  jinja_livereload : Bool
  jinja_auto_reload : Bool
  watched : List String
  deriving DecidableEq

/-- Models `os.path.join(a, b)` for the joins the code performs (the second
argument is always a relative path and the first has no trailing slash). -/
def pathJoin (a b : String) : String :=
  a ++ "/" ++ b

/-- Models `utils.abs_path(path)` with the default `relative_to` (the working
directory): absolute paths stand alone, relative paths are joined to `cwd`. -/
def absPathStr (cwd s : String) : String :=
  if strStarts s "/" then s else pathJoin cwd s

/-- Models `EnhancedApp._to_static_path(filename)` (core.py lines 244-245). -/
def to_static_path (st : AppState) (filename : String) : String :=
  pathJoin (absPathStr st.cwd (cfgStr st.config "prefix" ++ "static")) filename

/-- Models `EnhancedApp.add_js_asset` (core.py lines 184-192).  When the
input is a glob pattern the source evaluates `sorted(scripts, reverse=True)`
(line 187) but discards the returned list, so the bundle keeps the glob
order; the embedding therefore uses the glob result unchanged. -/
def add_js_asset (st : AppState) (globFn : String → List String)
    (output_file : String) (input_files : JsInput) : AppState :=
  let scripts := match input_files with
    | .pat p => globFn (pathJoin st.js_src_path p)
    | .files l => l
  let b : Bundle := ⟨scripts, to_static_path st output_file, st.js_filters, []⟩
  { st with
    registered := st.registered ++ [(output_file, b)],
    js_asset_names := st.js_asset_names ++ [output_file] }

/-- Models `EnhancedApp.add_css_asset` (core.py lines 194-201). -/
def add_css_asset (st : AppState) (base_file : String) : AppState :=
  let input_file := base_file ++ ".scss"
  let output_file := base_file ++ ".css"
  let b : Bundle := ⟨[pathJoin st.scss_path input_file], to_static_path st output_file,
                     st.css_filters, st.depends_scss⟩
  { st with
    registered := st.registered ++ [(output_file, b)],
    css_asset_names := st.css_asset_names ++ [output_file] }

/-- `enhance_assets`, lines 152-153: `self.js_filters = ['jsmin']` when the
jsmin toggle is set. -/
def eaStageJsmin (st : AppState) : AppState :=
  if cfgBool st.config "filter_jsmin" then { st with js_filters := [.jsmin] } else st

/-- `enhance_assets`, lines 155-156: append the babel filter when the babel
toggle is set. -/
def eaStageBabel (st : AppState) : AppState :=
  if cfgBool st.config "filter_babel" then
    { st with js_filters := st.js_filters ++ [.babel (cfgStr st.config "babel_presets")] }
  else st

/-- `enhance_assets`, lines 158-165: build the SCSS include paths and the
dependency globs (the project's own SCSS folder plus one entry per configured
SCSS library), then set the CSS filter chain to the libsass compiler. -/
def eaStageScss (st : AppState) : AppState :=
  let include_scss :=
    st.scss_path :: (cfgStrList st.config "scss_libs").map (fun f => pathJoin st.bower_path f)
  { st with
    depends_scss :=
      pathJoin st.scss_path "*.scss" ::
        (cfgStrList st.config "scss_libs").map
          (fun f => pathJoin (pathJoin st.bower_path f) "*.scss"),
    css_filters := [.libsass include_scss] }

/-- `enhance_assets`, lines 167-169: append the autoprefixer filter when its
toggle is set. -/
def eaStageAutoprefixer (st : AppState) : AppState :=
  if cfgBool st.config "filter_autoprefixer" then
    { st with css_filters := st.css_filters ++ [.autoprefixer "autoprefixer-cli" "last 2 version"] }
  else st

/-- `enhance_assets`, lines 171-174: register the `libs.js` bundle from the
configured JS library files (under the bower folder) when there are any. -/
def eaStageLibs (st : AppState) (globFn : String → List String) : AppState :=
  let libs := (cfgStrList st.config "js_libs").map (fun f => pathJoin st.bower_path f)
  if libs.isEmpty then st else add_js_asset st globFn "libs.js" (.files libs)

/-- Models `EnhancedApp.enhance_assets` (core.py lines 146-182). -/
def enhance_assets (st : AppState) (globFn : String → List String) : AppState :=
  let st := eaStageJsmin st
  let st := eaStageBabel st
  let st := eaStageScss st
  let st := eaStageAutoprefixer st
  let st := eaStageLibs st globFn
  let st := (cfgJsAssets st.config).foldl (fun s a => add_js_asset s globFn a.1 a.2) st
  (cfgStrList st.config "css_assets").foldl (fun s a => add_css_asset s a) st

/-- Models `EnhancedApp.enhance_jinja` (core.py lines 127-144): register the
extension, the configured filters and globals (each maps a public name to the
name of a `utils` function), and the context processor built from the
configured context mapping. -/
def enhance_jinja (st : AppState) : AppState :=
  { st with
    jinja_extensions := st.jinja_extensions ++ ["jinja2_ext_required.RequiredVariablesExtension"],
    jinja_filters := st.jinja_filters ++ cfgStrMap st.config "jinja_filters",
    jinja_globals := st.jinja_globals ++ cfgStrMap st.config "jinja_functions",
    context_processors := st.context_processors ++ [cfgStrMap st.config "jinja_context"] }

/-- Models `EnhancedApp.run_livereload` (core.py lines 203-215) up to the
blocking `server.serve` call: set the debug/livereload/auto-reload flags and
record the watched patterns (each watch template resolved against the
configuration and made absolute). -/
def run_livereload (st : AppState) (_port : Nat) : AppState :=
  { st with
    app_debug := true,
    jinja_livereload := true,
    jinja_auto_reload := true,
    watched := st.watched ++
      (cfgTpls st.config "livereload_watch_files").map
        (fun t => absPathStr st.cwd (resolveTemplate st.config t)) }

/-- Models `EnhancedApp.add_error_handlers` (core.py lines 217-230): register
handlers for 410, 403 and 404, in that order. -/
def add_error_handlers (st : AppState) : AppState :=
  { st with error_handlers := st.error_handlers ++ [410, 403, 404] }

/-! ### Decimal rendering (`'%i' % n`, and digit parsing used in proofs) -/

/-- Most-significant-first decimal digits of `n`, accumulated onto `acc`.
`fuel ≥ n + 1` always suffices. -/
def natDigitsAux : Nat → Nat → List Char → List Char
  | 0, _, acc => acc
  | fuel + 1, n, acc =>
    if n < 10 then Char.ofNat (48 + n % 10) :: acc
    else natDigitsAux fuel (n / 10) (Char.ofNat (48 + n % 10) :: acc)

/-- Models Python's `'%i' % n` for a natural number: decimal digits, no sign,
no padding. -/
def natToChars (n : Nat) : List Char :=
  natDigitsAux (n + 1) n []

/-- The number a most-significant-first digit list denotes (proof tool). -/
def charsVal : List Char → Nat
  | [] => 0
  | c :: cs => (c.toNat - 48) * 10 ^ cs.length + charsVal cs

/-- Zero-padding to a minimum width, as `strftime`'s `%d`/`%m`/`%H`/`%M`/`%Y`
directives pad. -/
def leadZeroChars (n w : Nat) : List Char :=
  let ds := natToChars n
  List.replicate (w - ds.length) '0' ++ ds

/-! ### `gen_slug` (utils.py lines 56-77)

```python
input_string = ''.join(c for c in unicodedata.normalize('NFD', input_string)
                       if unicodedata.category(c) != 'Mn')
base = re.sub('([^a-zA-Z\d]|\s)+', replace_char, input_string).lower().strip(replace_char)
slug = base
counter = 1
while slug in existing_slugs:
    slug = '%s-%i' % (base, counter)
    counter += 1
return slug
```
`unicodedata.normalize('NFD', ·)` is modelled by a character-level
decomposition table covering the precomposed Latin-1 letters (the alphabet
the slug examples use; ASCII characters decompose to themselves), and
`unicodedata.category(c) == 'Mn'` by membership in the combining-diacritics
block those decompositions produce. -/

/-- Combining grave accent, U+0300. -/
def markGrave : Char := Char.ofNat 0x0300

/-- Combining acute accent, U+0301. -/
def markAcute : Char := Char.ofNat 0x0301

/-- Combining circumflex, U+0302. -/
def markCirc : Char := Char.ofNat 0x0302

/-- Combining tilde, U+0303. -/
def markTilde : Char := Char.ofNat 0x0303

/-- Combining diaeresis, U+0308. -/
def markDiaer : Char := Char.ofNat 0x0308

/-- Combining ring above, U+030A. -/
def markRing : Char := Char.ofNat 0x030A

/-- Combining cedilla, U+0327. -/
def markCedilla : Char := Char.ofNat 0x0327

/-- NFD decomposition of one character: the Latin-1 precomposed letters
decompose into base letter plus combining mark; everything else (in
particular all of ASCII) is its own decomposition. -/
def nfdChar : Char → List Char
  | 'À' => ['A', markGrave] | 'Á' => ['A', markAcute] | 'Â' => ['A', markCirc]
  | 'Ã' => ['A', markTilde] | 'Ä' => ['A', markDiaer] | 'Å' => ['A', markRing]
  | 'Ç' => ['C', markCedilla]
  | 'È' => ['E', markGrave] | 'É' => ['E', markAcute] | 'Ê' => ['E', markCirc]
  | 'Ë' => ['E', markDiaer]
  | 'Ì' => ['I', markGrave] | 'Í' => ['I', markAcute] | 'Î' => ['I', markCirc]
  | 'Ï' => ['I', markDiaer]
  | 'Ñ' => ['N', markTilde]
  | 'Ò' => ['O', markGrave] | 'Ó' => ['O', markAcute] | 'Ô' => ['O', markCirc]
  | 'Õ' => ['O', markTilde] | 'Ö' => ['O', markDiaer]
  | 'Ù' => ['U', markGrave] | 'Ú' => ['U', markAcute] | 'Û' => ['U', markCirc]
  | 'Ü' => ['U', markDiaer]
  | 'Ý' => ['Y', markAcute]
  | 'à' => ['a', markGrave] | 'á' => ['a', markAcute] | 'â' => ['a', markCirc]
  | 'ã' => ['a', markTilde] | 'ä' => ['a', markDiaer] | 'å' => ['a', markRing]
  | 'ç' => ['c', markCedilla]
  | 'è' => ['e', markGrave] | 'é' => ['e', markAcute] | 'ê' => ['e', markCirc]
  | 'ë' => ['e', markDiaer]
  | 'ì' => ['i', markGrave] | 'í' => ['i', markAcute] | 'î' => ['i', markCirc]
  | 'ï' => ['i', markDiaer]
  | 'ñ' => ['n', markTilde]
  | 'ò' => ['o', markGrave] | 'ó' => ['o', markAcute] | 'ô' => ['o', markCirc]
  | 'õ' => ['o', markTilde] | 'ö' => ['o', markDiaer]
  | 'ù' => ['u', markGrave] | 'ú' => ['u', markAcute] | 'û' => ['u', markCirc]
  | 'ü' => ['u', markDiaer]
  | 'ý' => ['y', markAcute] | 'ÿ' => ['y', markDiaer]
  | c => [c]

/-- Membership in the combining-diacritics block U+0300-U+036F: models
`unicodedata.category(c) == 'Mn'` for the characters `nfdChar` produces. -/
def isMarkMn (c : Char) : Bool :=
  0x0300 ≤ c.toNat && c.toNat ≤ 0x036F

/-- A character the regex `([^a-zA-Z\d]|\s)+` does NOT match (Python 2 `re`
without the unicode flag: ASCII letters and digits). -/
def isSlugKeep (c : Char) : Bool :=
  c.isAlpha || c.isDigit

/-- `re.sub('([^a-zA-Z\d]|\s)+', rc, s)`: replace each maximal run of
non-kept characters by a single `rc`.  `inRun` records whether the previous
character was part of such a run. -/
def collapseGo (rc : Char) (inRun : Bool) : List Char → List Char
  | [] => []
  | c :: cs =>
    if isSlugKeep c then c :: collapseGo rc false cs
    else if inRun then collapseGo rc true cs
    else rc :: collapseGo rc true cs

/-- Models Python's `str.strip(rc)`: drop `rc` from both ends. -/
def stripChar (rc : Char) (l : List Char) : List Char :=
  ((l.dropWhile (fun c => c == rc)).reverse.dropWhile (fun c => c == rc)).reverse

/-- The `base` slug computed by `gen_slug` before the collision loop:
NFD-decompose, drop combining marks, collapse non-alphanumeric runs into the
replacement character, lowercase, strip the replacement character. -/
def slugBase (rc : Char) (l : List Char) : List Char :=
  let deaccented := ((l.map nfdChar).flatten).filter (fun c => !(isMarkMn c))
  stripChar rc ((collapseGo rc false deaccented).map pyLowerChar)

/-- The `k`-th candidate the collision loop tries: the base itself, then
`'%s-%i' % (base, k)` (the suffix separator is the literal `'-'` in the
source, independent of `replace_char`). -/
def slugCand (base : List Char) : Nat → List Char
  | 0 => base
  | k + 1 => base ++ '-' :: natToChars (k + 1)

/-- The collision loop `while slug in existing_slugs: slug = '%s-%i' % (base,
counter); counter += 1`, run with explicit fuel.  `gen_slug` calls it with
fuel `existing.length + 1`, which theorem `gen_slug_fuel` below shows is
always enough for the loop to exit via its guard. -/
def genSlugFrom (existing : List (List Char)) (base : List Char) :
    List Char → Nat → Nat → List Char
  | slug, _, 0 => slug
  | slug, counter, fuel + 1 =>
    if slug ∈ existing then
      genSlugFrom existing base (base ++ '-' :: natToChars counter) (counter + 1) fuel
    else slug

/-- `gen_slug` on character lists. -/
def gen_slug_chars (l : List Char) (existing : List (List Char)) (rc : Char) : List Char :=
  let base := slugBase rc l
  genSlugFrom existing base base 1 (existing.length + 1)

/-- Models `utils.gen_slug(input_string, existing_slugs, replace_char)`
(utils.py lines 56-77). -/
def gen_slug (s : String) (existing : List String) (rc : Char) : String :=
  String.mk (gen_slug_chars s.data (existing.map String.data) rc)

/-- The base slug of a text under the default replacement character — the
value `gen_slug` returns whenever it does not collide. -/
def slug_base_str (s : String) : String :=
  String.mk (slugBase '-' s.data)

/-! ### Python values for the formatting utilities

The value domain the claims exercise: integers, strings, `None`, and
`datetime` values.  `float(value)` is modelled on the fragment where the
conversion is exact: integers, and strings that are optionally-signed decimal
integer literals.  Fractional/exponent literals and the float range/precision
limits are floating-point territory and outside the model. -/

/-- A `datetime.datetime` value (the fields the code touches). -/
structure PyDateTime where
  year : Nat
  month : Nat
  day : Nat
  hour : Nat
  minute : Nat
  deriving DecidableEq

/-- A Python value passed to the template utilities. -/
inductive PyVal where
  | int (n : Int)
  | str (s : String)
  | none
  | dt (d : PyDateTime)
  deriving DecidableEq

/-- Python truthiness (`not d`) on this value domain: `0`, `''` and `None`
are falsy; `datetime` values are always truthy. -/
def pyIsFalsy : PyVal → Bool
  | .int n => n = 0
  | .str s => s.data.isEmpty
  | .none => true
  | .dt _ => false

/-- Parse an unsigned run of decimal digits (all-or-nothing). -/
def digitsToNatGo (acc : Nat) : List Char → Option Nat
  | [] => some acc
  | c :: cs => if c.isDigit then digitsToNatGo (acc * 10 + (c.toNat - 48)) cs else Option.none

/-- The integer-literal fragment of Python's `float(s)` for strings: an
optional `'-'` followed by at least one digit. -/
def strToIntOpt (s : String) : Option Int :=
  match s.data with
  | [] => Option.none
  | '-' :: rest =>
    if rest.isEmpty then Option.none
    else (digitsToNatGo 0 rest).map (fun n => -(n : Int))
  | l => (digitsToNatGo 0 l).map (fun n => (n : Int))

/-- `float(value)` in `format_currency`'s `try` block: succeeds on integers
and integer-literal strings; raises `TypeError` on `None`/`datetime` and
`ValueError` on non-numeric strings (modelled as `Option.none` either way,
since the `except` clause catches exactly those two). -/
def pyFloatOpt : PyVal → Option Int
  | .int n => some n
  | .str s => strToIntOpt s
  | .none => Option.none
  | .dt _ => Option.none

/-- Insert a `','` before every later group of three digits, on the reversed
(least-significant-first) digit list. -/
def grpRev : Nat → List Char → List Char
  | _, [] => []
  | 0, d :: ds => ',' :: d :: grpRev 2 ds
  | k + 1, d :: ds => d :: grpRev k ds

/-- The thousands grouping of `'{:,}'`-style formatting: commas every three
digits from the right. -/
def groupThousands (ds : List Char) : List Char :=
  (grpRev 3 ds.reverse).reverse

/-- The characters of `"${:,.2f}".format(float(n))` for an integer `n`:
dollar sign, then the sign, then the comma-grouped digits, then `".00"`. -/
def dollarChars (n : Int) : List Char :=
  '$' :: ((if n < 0 then ['-'] else []) ++
    groupThousands (natToChars n.natAbs) ++ '.' :: '0' :: ['0'])

/-- Models `utils.format_currency` (utils.py lines 111-123): format the value
as dollars if `float(value)` succeeds, otherwise return the value unchanged. -/
def format_currency (v : PyVal) : PyVal :=
  match pyFloatOpt v with
  | some n => .str (String.mk (dollarChars n))
  | Option.none => v

/-- `d.strftime('%d/%m/%Y %H:%M')` — the default format string of
`format_datetime`. -/
def strftimeDefault (d : PyDateTime) : String :=
  String.mk (leadZeroChars d.day 2 ++ '/' :: leadZeroChars d.month 2 ++
    '/' :: leadZeroChars d.year 4 ++ ' ' :: leadZeroChars d.hour 2 ++
    ':' :: leadZeroChars d.minute 2)

/-- The guard `type(d) == 'datetime'` in `format_datetime` (utils.py line
150): it compares the type object itself with the string `'datetime'`, and a
type object never equals a string in Python, so the comparison is `False` for
every value — including genuine `datetime` values. -/
def pyTypeEqStrDatetime (_v : PyVal) : Bool := false

/-- Models `utils.format_datetime` (utils.py lines 140-153) at the default
format: empty string for falsy input; otherwise the input unchanged unless
the (always-false) type guard passes; the `strftime` branch is dead code. -/
def format_datetime (d : PyVal) : PyVal :=
  if pyIsFalsy d then .str ""
  else if !(pyTypeEqStrDatetime d) then d
  else match d with
    | .dt v => .str (strftimeDefault v)
    | _ => d

/-! ### `next_year` (utils.py lines 206-217)

`datetime.replace` validates the new field values: the year must lie in
`MINYEAR..MAXYEAR` (1..9999) and the day must fit the month in the new year,
otherwise it raises `ValueError`.  The `try` block replaces the year; on
`ValueError` the `except` block replaces year, month=3, day=1 — and an error
raised there propagates (it is outside the `try`). -/

/-- Gregorian leap-year rule, as `datetime` implements it. -/
def isLeapYear (y : Nat) : Bool :=
  y % 4 = 0 && (y % 100 ≠ 0 || y % 400 = 0)

/-- Days in a month, as `datetime` implements it. -/
def daysInMonth (y m : Nat) : Nat :=
  if m = 2 then (if isLeapYear y then 29 else 28)
  else if m = 4 || m = 6 || m = 9 || m = 11 then 30
  else 31

/-- The validity check `datetime.replace` applies (year within
`MINYEAR..MAXYEAR`, month 1..12, day fitting the month). -/
def validDate (y m d : Nat) : Bool :=
  1 ≤ y && y ≤ 9999 && 1 ≤ m && m ≤ 12 && 1 ≤ d && d ≤ daysInMonth y m

/-- Models `d.replace(year=y, month=m, day=day)`: the new value, or
`ValueError`. -/
def replaceYMD (d : PyDateTime) (y m day : Nat) : Except String PyDateTime :=
  if validDate y m day then .ok { d with year := y, month := m, day := day }
  else .error "ValueError"

/-- Models `utils.next_year` on a given datetime (the `if not d` branch picks
`datetime.now()` and never applies to an explicit argument, since `datetime`
values are always truthy). -/
def next_year (d : PyDateTime) : Except String PyDateTime :=
  match replaceYMD d (d.year + 1) d.month d.day with
  | .ok r => .ok r
  | .error _ => replaceYMD d (d.year + 1) 3 1

/-! ### Concrete material for the counterexample evaluations -/

/-- Lexicographic comparison by code point — how Python compares strings. -/
def charListLt : List Char → List Char → Bool
  | [], [] => false
  | [], _ :: _ => true
  | _ :: _, [] => false
  | c :: cs, d :: ds =>
    if c.toNat < d.toNat then true
    else if d.toNat < c.toNat then false
    else charListLt cs ds

/-- Python's `a < b` on strings. -/
def strLtPy (a b : String) : Bool :=
  charListLt a.data b.data

/-- Descending insertion into a descending-sorted list. -/
def insertDesc (x : String) : List String → List String
  | [] => [x]
  | y :: ys => if strLtPy y x then x :: y :: ys else y :: insertDesc x ys

/-- Sort in reverse (descending) lexicographic order — the order the
specification asserts for glob-resolved JS inputs. -/
def sortDesc (l : List String) : List String :=
  l.foldr insertDesc []

/-- A concrete app state as `__init__` leaves it just before
`enhance_assets` runs: default effective configuration, project root
`/proj`, empty filter chains and registration logs. -/
def sampleState : AppState :=
  { config := effective_config [] []
    cwd := "/proj"
    scss_path := "/proj/static/scss"
    js_src_path := "/proj/static/js_src"
    bower_path := "/proj/bower_components"
    js_filters := []
    css_filters := []
    depends_scss := []
    js_asset_names := []
    css_asset_names := []
    registered := []
    jinja_extensions := []
    jinja_filters := []
    jinja_globals := []
    context_processors := []
    error_handlers := []
    app_debug := false
    jinja_livereload := false
    jinja_auto_reload := false
    watched := [] }

/-- A concrete `glob.glob` oracle: the JS source folder holds `a.js` and
`b.js`, reported in that (already ascending) directory order. -/
def sampleGlob : String → List String := fun p =>
  if p == "/proj/static/js_src/*.js" then
    ["/proj/static/js_src/a.js", "/proj/static/js_src/b.js"]
  else []

/-! ## Theorems -/

/-! ### State-preservation helpers for the registrar methods -/

theorem add_js_asset_fields (st : AppState) (g : String → List String)
    (o : String) (i : JsInput) :
    (add_js_asset st g o i).config = st.config ∧
    (add_js_asset st g o i).js_asset_names = st.js_asset_names ++ [o] ∧
    (add_js_asset st g o i).registered.map Prod.fst = st.registered.map Prod.fst ++ [o] ∧
    (add_js_asset st g o i).css_asset_names = st.css_asset_names := by
  refine ⟨rfl, rfl, ?_, rfl⟩
  simp [add_js_asset]

theorem add_css_asset_fields (st : AppState) (b : String) :
    (add_css_asset st b).config = st.config ∧
    (add_css_asset st b).js_asset_names = st.js_asset_names ∧
    (add_css_asset st b).registered.map Prod.fst =
      st.registered.map Prod.fst ++ [b ++ ".css"] ∧
    (add_css_asset st b).css_asset_names = st.css_asset_names ++ [b ++ ".css"] := by
  refine ⟨rfl, rfl, ?_, rfl⟩
  simp [add_css_asset]

theorem eaStageJsmin_fields (st : AppState) :
    (eaStageJsmin st).config = st.config ∧
    (eaStageJsmin st).js_asset_names = st.js_asset_names ∧
    (eaStageJsmin st).registered = st.registered ∧
    (eaStageJsmin st).css_asset_names = st.css_asset_names := by
  unfold eaStageJsmin
  split <;> exact ⟨rfl, rfl, rfl, rfl⟩

theorem eaStageBabel_fields (st : AppState) :
    (eaStageBabel st).config = st.config ∧
    (eaStageBabel st).js_asset_names = st.js_asset_names ∧
    (eaStageBabel st).registered = st.registered ∧
    (eaStageBabel st).css_asset_names = st.css_asset_names := by
  unfold eaStageBabel
  split <;> exact ⟨rfl, rfl, rfl, rfl⟩

theorem eaStageScss_fields (st : AppState) :
    (eaStageScss st).config = st.config ∧
    (eaStageScss st).js_asset_names = st.js_asset_names ∧
    (eaStageScss st).registered = st.registered ∧
    (eaStageScss st).css_asset_names = st.css_asset_names :=
  ⟨rfl, rfl, rfl, rfl⟩

theorem eaStageAutoprefixer_fields (st : AppState) :
    (eaStageAutoprefixer st).config = st.config ∧
    (eaStageAutoprefixer st).js_asset_names = st.js_asset_names ∧
    (eaStageAutoprefixer st).registered = st.registered ∧
    (eaStageAutoprefixer st).css_asset_names = st.css_asset_names := by
  unfold eaStageAutoprefixer
  split <;> exact ⟨rfl, rfl, rfl, rfl⟩

theorem eaStageLibs_config (st : AppState) (g : String → List String) :
    (eaStageLibs st g).config = st.config := by
  simp only [eaStageLibs]
  split
  · rfl
  · exact (add_js_asset_fields st g "libs.js" _).1

theorem eaStageLibs_fields_nonempty (st : AppState) (g : String → List String)
    (h : cfgStrList st.config "js_libs" ≠ []) :
    (eaStageLibs st g).config = st.config ∧
    (eaStageLibs st g).js_asset_names = st.js_asset_names ++ ["libs.js"] ∧
    (eaStageLibs st g).registered.map Prod.fst = st.registered.map Prod.fst ++ ["libs.js"] ∧
    (eaStageLibs st g).css_asset_names = st.css_asset_names := by
  simp only [eaStageLibs]
  rw [if_neg (by simpa using h)]
  exact add_js_asset_fields st g "libs.js" _

theorem foldl_add_js_spec (g : String → List String) :
    ∀ (l : List (String × JsInput)) (st : AppState),
    (l.foldl (fun s a => add_js_asset s g a.1 a.2) st).config = st.config ∧
    (l.foldl (fun s a => add_js_asset s g a.1 a.2) st).js_asset_names =
      st.js_asset_names ++ l.map Prod.fst ∧
    (l.foldl (fun s a => add_js_asset s g a.1 a.2) st).registered.map Prod.fst =
      st.registered.map Prod.fst ++ l.map Prod.fst ∧
    (l.foldl (fun s a => add_js_asset s g a.1 a.2) st).css_asset_names =
      st.css_asset_names
  | [], st => ⟨rfl, by simp, by simp, rfl⟩
  | a :: l, st => by
    have ih := foldl_add_js_spec g l (add_js_asset st g a.1 a.2)
    have hf := add_js_asset_fields st g a.1 a.2
    refine ⟨?_, ?_, ?_, ?_⟩
    · simpa [hf.1] using ih.1
    · simp only [List.foldl_cons] at *
      rw [ih.2.1, hf.2.1]
      simp
    · simp only [List.foldl_cons] at *
      rw [ih.2.2.1, hf.2.2.1]
      simp
    · simp only [List.foldl_cons] at *
      rw [ih.2.2.2, hf.2.2.2]

theorem foldl_add_css_spec :
    ∀ (l : List String) (st : AppState),
    (l.foldl (fun s a => add_css_asset s a) st).config = st.config ∧
    (l.foldl (fun s a => add_css_asset s a) st).js_asset_names = st.js_asset_names ∧
    (l.foldl (fun s a => add_css_asset s a) st).registered.map Prod.fst =
      st.registered.map Prod.fst ++ l.map (fun b => b ++ ".css")
  | [], st => ⟨rfl, rfl, by simp⟩
  | a :: l, st => by
    have ih := foldl_add_css_spec l (add_css_asset st a)
    have hf := add_css_asset_fields st a
    refine ⟨?_, ?_, ?_⟩
    · simpa [hf.1] using ih.1
    · simp only [List.foldl_cons] at *
      rw [ih.2.1, hf.2.1]
    · simp only [List.foldl_cons] at *
      rw [ih.2.2, hf.2.2.1]
      simp

/-- Claim C10: after construction, none of the wrapper's operations
(`enhance_jinja`, `enhance_assets`, `add_js_asset`, `add_css_asset`,
`run_livereload`, `add_error_handlers`) modifies any key or value of the
merged effective configuration mapping; each one only reads it. -/
theorem claim10_config_immutable (st : AppState) (g : String → List String)
    (o : String) (i : JsInput) (b : String) (p : Nat) :
    (enhance_jinja st).config = st.config ∧
    (enhance_assets st g).config = st.config ∧
    (add_js_asset st g o i).config = st.config ∧
    (add_css_asset st b).config = st.config ∧
    (run_livereload st p).config = st.config ∧
    (add_error_handlers st).config = st.config := by
  refine ⟨rfl, ?_, rfl, rfl, rfl, rfl⟩
  unfold enhance_assets
  rw [(foldl_add_css_spec _ _).1, (foldl_add_js_spec g _ _).1,
      eaStageLibs_config, (eaStageAutoprefixer_fields _).1, (eaStageScss_fields _).1,
      (eaStageBabel_fields _).1, (eaStageJsmin_fields _).1]

/-- Claim C6: when JS library files and application JS asset descriptors are
both configured, `enhance_assets` registers the `libs.js` libraries bundle
before every application-script bundle, and the per-category registration
order `js_asset_names` lists `libs.js` first followed by the application
bundles in configuration order. -/
theorem claim6_js_registration_order (st : AppState) (g : String → List String)
    (h0 : st.js_asset_names = []) (hlibs : cfgStrList st.config "js_libs" ≠ []) :
    (enhance_assets st g).js_asset_names =
      "libs.js" :: (cfgJsAssets st.config).map Prod.fst ∧
    (enhance_assets st g).registered.map Prod.fst =
      st.registered.map Prod.fst ++
        "libs.js" :: ((cfgJsAssets st.config).map Prod.fst ++
          (cfgStrList st.config "css_assets").map (fun b => b ++ ".css")) := by
  set s1 := eaStageJsmin st with hs1
  set s2 := eaStageBabel s1 with hs2
  set s3 := eaStageScss s2 with hs3
  set s4 := eaStageAutoprefixer s3 with hs4
  set s5 := eaStageLibs s4 g with hs5
  set s6 := (cfgJsAssets s5.config).foldl (fun s a => add_js_asset s g a.1 a.2) s5 with hs6
  have he : enhance_assets st g =
      (cfgStrList s6.config "css_assets").foldl (fun s a => add_css_asset s a) s6 := by
    rw [hs6, hs5, hs4, hs3, hs2, hs1]
    rfl
  have c4 : s4.config = st.config := by
    rw [hs4, (eaStageAutoprefixer_fields s3).1, hs3, (eaStageScss_fields s2).1, hs2,
        (eaStageBabel_fields s1).1, hs1, (eaStageJsmin_fields st).1]
  have n4 : s4.js_asset_names = [] := by
    rw [hs4, (eaStageAutoprefixer_fields s3).2.1, hs3, (eaStageScss_fields s2).2.1, hs2,
        (eaStageBabel_fields s1).2.1, hs1, (eaStageJsmin_fields st).2.1, h0]
  have r4 : s4.registered = st.registered := by
    rw [hs4, (eaStageAutoprefixer_fields s3).2.2.1, hs3, (eaStageScss_fields s2).2.2.1, hs2,
        (eaStageBabel_fields s1).2.2.1, hs1, (eaStageJsmin_fields st).2.2.1]
  have h5 := eaStageLibs_fields_nonempty s4 g (by rw [c4]; exact hlibs)
  rw [← hs5] at h5
  have c5 : s5.config = st.config := h5.1.trans c4
  have n5 : s5.js_asset_names = ["libs.js"] := by
    rw [h5.2.1, n4]
    rfl
  have r5 : s5.registered.map Prod.fst = st.registered.map Prod.fst ++ ["libs.js"] := by
    rw [h5.2.2.1, r4]
  have h6 := foldl_add_js_spec g (cfgJsAssets s5.config) s5
  rw [← hs6] at h6
  have c6 : s6.config = st.config := h6.1.trans c5
  have n6 : s6.js_asset_names = "libs.js" :: (cfgJsAssets st.config).map Prod.fst := by
    rw [h6.2.1, n5, c5]
    rfl
  have r6 : s6.registered.map Prod.fst =
      st.registered.map Prod.fst ++ "libs.js" :: (cfgJsAssets st.config).map Prod.fst := by
    rw [h6.2.2.1, r5, c5]
    simp
  have h7 := foldl_add_css_spec (cfgStrList s6.config "css_assets") s6
  constructor
  · rw [he, h7.2.1, n6]
  · rw [he, h7.2.2, r6, c6]
    simp

/-- Closed instance of claim C6 at the default configuration: `libs.js` is
registered and recorded first, then `scripts.js`, then the CSS bundle. -/
theorem claim6_witness :
    (enhance_assets sampleState sampleGlob).js_asset_names = ["libs.js", "scripts.js"] ∧
    (enhance_assets sampleState sampleGlob).registered.map Prod.fst =
      ["libs.js", "scripts.js", "styles.scss.css"] := by
  have h := claim6_js_registration_order sampleState sampleGlob rfl (by decide)
  exact ⟨h.1.trans (by decide), h.2.trans (by decide)⟩

/-- Claim C2, evaluated: with the JS source folder holding `a.js` and `b.js`
and the glob oracle reporting them in ascending order, `add_js_asset`
registers the bundle with the glob order unchanged — `sorted(scripts,
reverse=True)` on line 187 discards its result — whereas the claimed reverse
lexicographic order would be `b.js` before `a.js`. -/
theorem claim2_glob_order :
    (add_js_asset sampleState sampleGlob "scripts.js" (.pat "*.js")).registered.map
        (fun p => p.2.contents) =
      [["/proj/static/js_src/a.js", "/proj/static/js_src/b.js"]] ∧
    sortDesc ["/proj/static/js_src/a.js", "/proj/static/js_src/b.js"] =
      ["/proj/static/js_src/b.js", "/proj/static/js_src/a.js"] ∧
    ¬ ([["/proj/static/js_src/a.js", "/proj/static/js_src/b.js"]] =
       [sortDesc ["/proj/static/js_src/a.js", "/proj/static/js_src/b.js"]]) := by
  refine ⟨by decide, by decide, by decide⟩

/-- Claim C9, evaluated: `format_datetime` applied to the truthy datetime
2020-01-02 03:04 returns the datetime unchanged — the guard
`type(d) == 'datetime'` on line 150 compares a type object to a string and is
always false — whereas the claim demands the formatted string
`"02/01/2020 03:04"`, a different value. -/
theorem claim9_datetime_unchanged :
    format_datetime (.dt ⟨2020, 1, 2, 3, 4⟩) = .dt ⟨2020, 1, 2, 3, 4⟩ ∧
    strftimeDefault ⟨2020, 1, 2, 3, 4⟩ = "02/01/2020 03:04" ∧
    PyVal.dt ⟨2020, 1, 2, 3, 4⟩ ≠ PyVal.str "02/01/2020 03:04" := by
  refine ⟨rfl, by decide, by decide⟩

/-! ### The scaffolder's skip-rest behaviour -/

theorem cfsLoop_nil (cwd : RPath) (cfg : List (String × ConfigVal)) (fs : Fs) :
    cfsLoop cwd cfg fs [] = fs := rfl

theorem cfsLoop_cons (cwd : RPath) (cfg : List (String × ConfigVal)) (fs : Fs)
    (u : Template) (ts : List Template) :
    cfsLoop cwd cfg fs (u :: ts) =
      if pathExists fs (strToRPath cwd (resolveTemplate cfg u)) then fs
      else
        cfsLoop cwd cfg
          (createPath fs (strToRPath cwd (resolveTemplate cfg u))
            (strIsFilePath (resolveTemplate cfg u)))
          ts := rfl

theorem cfsLoop_break (cwd : RPath) (cfg : List (String × ConfigVal))
    (t : Template) (ts2 : List Template) :
    ∀ (ts1 : List Template) (fs : Fs),
    pathExists (cfsLoop cwd cfg fs ts1) (strToRPath cwd (resolveTemplate cfg t)) = true →
    cfsLoop cwd cfg fs (ts1 ++ t :: ts2) = cfsLoop cwd cfg fs ts1
  | [], fs, h => by
    rw [cfsLoop_nil] at h
    rw [List.nil_append, cfsLoop_cons, if_pos h, cfsLoop_nil]
  | u :: ts1, fs, h => by
    rw [cfsLoop_cons] at h
    rw [List.cons_append, cfsLoop_cons, cfsLoop_cons]
    by_cases hu : pathExists fs (strToRPath cwd (resolveTemplate cfg u)) = true
    · simp only [if_pos hu]
    · simp only [if_neg hu] at h ⊢
      exact cfsLoop_break cwd cfg t ts2 ts1 _ h

/-- Claim C5: iterating the path-template list in order, as soon as one
template's resolved path already exists, no path is created for that
template or any later template (the scaffolder's result is exactly the state
reached before that template); in particular, when the first template's
resolved path exists the filesystem is returned completely unchanged. -/
theorem claim5_scaffold_skip_rest (cwd : RPath) (cfg : List (String × ConfigVal)) (fs : Fs) :
    (∀ ts1 t ts2, cfgTpls cfg "folder_structure" = ts1 ++ t :: ts2 →
      pathExists (cfsLoop cwd cfg fs ts1) (strToRPath cwd (resolveTemplate cfg t)) = true →
      create_folder_structure cwd cfg fs = cfsLoop cwd cfg fs ts1) ∧
    (∀ t ts, cfgTpls cfg "folder_structure" = t :: ts →
      pathExists fs (strToRPath cwd (resolveTemplate cfg t)) = true →
      create_folder_structure cwd cfg fs = fs) := by
  constructor
  · intro ts1 t ts2 hstruct h
    rw [create_folder_structure, hstruct]
    exact cfsLoop_break cwd cfg t ts2 ts1 fs h
  · intro t ts hstruct h
    rw [create_folder_structure, hstruct, cfsLoop_cons, if_pos h]

/-- Closed instance of claim C5: with the default configuration the first
template resolves to `static/`; when `/proj/static` already exists the
scaffolder leaves the filesystem unchanged. -/
theorem claim5_witness :
    create_folder_structure ["proj"] (effective_config [] [])
      [⟨["static", "proj"], false⟩] = [⟨["static", "proj"], false⟩] := by
  exact (claim5_scaffold_skip_rest ["proj"] (effective_config [] [])
      [⟨["static", "proj"], false⟩]).2
    [TPart.var "prefix", TPart.lit "static/"]
    [[TPart.var "prefix", TPart.lit "static/", TPart.var "scss_folder", TPart.lit "/styles.scss"],
     [TPart.var "prefix", TPart.lit "static/"],
     [TPart.var "prefix", TPart.lit "static/", TPart.var "js_src_folder", TPart.lit "/Main.js"],
     [TPart.var "prefix", TPart.lit "static/images/"],
     [TPart.var "prefix", TPart.lit "static/fonts/"],
     [TPart.var "prefix", TPart.var "templates_folder", TPart.lit "/"]]
    (by decide) (by decide)

/-! ### `next_year` -/

/-- Claim C8 as stated is false at the upper end of `datetime`'s year range:
for 5 May 9999 the first `replace` raises `ValueError` (year 10000 is out of
range), the `except` block's `replace` raises again, and the exception
propagates — `next_year` does not return 5 May 10000 (or anything at all). -/
theorem claim8_counterexample :
    next_year ⟨9999, 5, 5, 0, 0⟩ = Except.error "ValueError" ∧
    (Except.error "ValueError" : Except String PyDateTime) ≠
      Except.ok ⟨10000, 5, 5, 0, 0⟩ := by
  refine ⟨rfl, by simp⟩

/-- Claim C8, amended with the year bound the counterexample forces: for
every valid date whose following year is still within `datetime`'s range,
February 29 (necessarily of a leap year) rolls to March 1 of the following
year, and every other date keeps its month and day in the following year. -/
theorem claim8_next_year (d : PyDateTime)
    (hv : validDate d.year d.month d.day = true) (hy : d.year + 1 ≤ 9999) :
    (d.month = 2 ∧ d.day = 29 →
      next_year d = Except.ok { d with year := d.year + 1, month := 3, day := 1 }) ∧
    (¬(d.month = 2 ∧ d.day = 29) →
      next_year d = Except.ok { d with year := d.year + 1 }) := by
  simp only [validDate, Bool.and_eq_true, decide_eq_true_eq] at hv
  obtain ⟨⟨⟨⟨⟨hy1, _⟩, hm1⟩, hm12⟩, hd1⟩, hdm⟩ := hv
  constructor
  · rintro ⟨hm2, hd29⟩
    rw [hm2, hd29] at hdm
    have hL : isLeapYear d.year = true := by
      by_contra hnl
      simp only [Bool.not_eq_true] at hnl
      rw [daysInMonth, if_pos rfl, if_neg (by simp [hnl])] at hdm
      omega
    have hL1 : isLeapYear (d.year + 1) = false := by
      simp only [isLeapYear, Bool.and_eq_true, decide_eq_true_eq] at hL
      simp only [isLeapYear, Bool.and_eq_false_iff, decide_eq_false_iff_not]
      left
      omega
    have hdm2 : daysInMonth (d.year + 1) 2 = 28 := by
      simp [daysInMonth, hL1]
    have hval1 : validDate (d.year + 1) d.month d.day = false := by
      rw [hm2, hd29]
      simp [validDate, hdm2]
    have hval2 : validDate (d.year + 1) 3 1 = true := by
      simp only [validDate, daysInMonth, Bool.and_eq_true, decide_eq_true_eq]
      refine ⟨⟨⟨⟨⟨by omega, hy⟩, by omega⟩, by omega⟩, by omega⟩, ?_⟩
      norm_num
    rw [next_year, replaceYMD, if_neg (by simp [hval1]), replaceYMD, if_pos (by simp [hval2])]
  · intro hnot
    have hdm1 : d.day ≤ daysInMonth (d.year + 1) d.month := by
      by_cases hm2 : d.month = 2
      · have hd29 : d.day ≠ 29 := fun h => hnot ⟨hm2, h⟩
        rw [hm2] at hdm ⊢
        rw [daysInMonth, if_pos rfl] at hdm ⊢
        split at hdm <;> split <;> omega
      · have : daysInMonth (d.year + 1) d.month = daysInMonth d.year d.month := by
          rw [daysInMonth, daysInMonth, if_neg hm2, if_neg hm2]
        rw [this]
        exact hdm
    have hval1 : validDate (d.year + 1) d.month d.day = true := by
      simp only [validDate, Bool.and_eq_true, decide_eq_true_eq]
      exact ⟨⟨⟨⟨⟨by omega, hy⟩, hm1⟩, hm12⟩, hd1⟩, hdm1⟩
    rw [next_year, replaceYMD, if_pos (by simp [hval1])]

/-- Closed instances of the amended claim C8: 29 February 2024 rolls to
1 March 2025 (preserving the time of day), and 14 July 2023 keeps its month
and day in 2024. -/
theorem claim8_witness :
    next_year ⟨2024, 2, 29, 10, 30⟩ = Except.ok ⟨2025, 3, 1, 10, 30⟩ ∧
    next_year ⟨2023, 7, 14, 0, 0⟩ = Except.ok ⟨2024, 7, 14, 0, 0⟩ := by
  constructor
  · exact (claim8_next_year ⟨2024, 2, 29, 10, 30⟩ (by decide) (by decide)).1 ⟨rfl, rfl⟩
  · exact (claim8_next_year ⟨2023, 7, 14, 0, 0⟩ (by decide) (by decide)).2 (by decide)

/-! ### Decimal digits: correctness of the rendering -/

theorem toNat_ofNat_valid (n : Nat) (h : n.isValidChar) : (Char.ofNat n).toNat = n := by
  simp [Char.ofNat, h, Char.toNat, Char.ofNatAux, UInt32.toNat]

theorem natDigitsAux_spec : ∀ (fuel n : Nat) (acc : List Char), n < fuel →
    natDigitsAux fuel n acc = natDigitsAux (n + 1) n [] ++ acc := by
  intro fuel
  induction fuel using Nat.strong_induction_on with
  | _ fuel ih =>
    intro n acc h
    match fuel, h with
    | f + 1, h =>
      rw [natDigitsAux]
      by_cases h10 : n < 10
      · rw [if_pos h10, natDigitsAux, if_pos h10]
        rfl
      · rw [if_neg h10]
        rw [ih f (by omega) (n / 10) _ (by omega)]
        conv_rhs => rw [natDigitsAux]
        rw [if_neg h10]
        rw [ih n (by omega) (n / 10) _ (by omega)]
        simp

theorem charsVal_append (xs ys : List Char) :
    charsVal (xs ++ ys) = charsVal xs * 10 ^ ys.length + charsVal ys := by
  induction xs with
  | nil => simp [charsVal]
  | cons c cs ih =>
    simp only [List.cons_append, charsVal, List.append_eq]
    rw [ih, List.length_append, pow_add]
    ring

theorem charsVal_natToChars (n : Nat) : charsVal (natToChars n) = n := by
  induction n using Nat.strong_induction_on with
  | _ n ih =>
    by_cases h10 : n < 10
    · rw [natToChars, natDigitsAux, if_pos h10]
      simp only [charsVal, List.length_nil, pow_zero, mul_one]
      rw [toNat_ofNat_valid _ (Or.inl (by omega))]
      omega
    · rw [natToChars, natDigitsAux, if_neg h10, natDigitsAux_spec _ _ _ (by omega)]
      rw [charsVal_append]
      rw [show natDigitsAux (n / 10 + 1) (n / 10) [] = natToChars (n / 10) from rfl]
      rw [ih (n / 10) (by omega)]
      simp only [charsVal, List.length_cons, List.length_nil, pow_zero, mul_one, pow_one]
      rw [toNat_ofNat_valid _ (Or.inl (by omega))]
      omega

theorem natToChars_ne_nil (n : Nat) : natToChars n ≠ [] := by
  by_cases h10 : n < 10
  · rw [natToChars, natDigitsAux, if_pos h10]
    simp
  · rw [natToChars, natDigitsAux, if_neg h10, natDigitsAux_spec _ _ _ (by omega)]
    simp

theorem natToChars_inj (a b : Nat) (h : natToChars a = natToChars b) : a = b := by
  rw [← charsVal_natToChars a, ← charsVal_natToChars b, h]

theorem natToChars_digits (n : Nat) : ∀ c ∈ natToChars n, 48 ≤ c.toNat ∧ c.toNat ≤ 57 := by
  induction n using Nat.strong_induction_on with
  | _ n ih =>
    intro c hc
    by_cases h10 : n < 10
    · rw [natToChars, natDigitsAux, if_pos h10] at hc
      simp only [List.mem_singleton] at hc
      subst hc
      rw [toNat_ofNat_valid _ (Or.inl (by omega))]
      omega
    · rw [natToChars, natDigitsAux, if_neg h10, natDigitsAux_spec _ _ _ (by omega)] at hc
      rcases List.mem_append.mp hc with hmem | hmem
      · exact ih (n / 10) (by omega) c hmem
      · simp only [List.mem_singleton] at hmem
        subst hmem
        rw [toNat_ofNat_valid _ (Or.inl (by omega))]
        omega

/-! ### Thousands grouping only inserts commas -/

theorem grpRev_filter : ∀ (k : Nat) (l : List Char),
    (∀ c ∈ l, 48 ≤ c.toNat ∧ c.toNat ≤ 57) →
    (grpRev k l).filter (fun c => c != ',') = l
  | k, [], _ => by cases k <;> rfl
  | 0, d :: ds, h => by
    have hd : (d != ',') = true := by
      rcases h d (List.mem_cons_self d ds) with ⟨h1, h2⟩
      simp only [bne_iff_ne, ne_eq]
      intro he
      subst he
      exact absurd h1 (by decide)
    have hcomma : ((',' : Char) != ',') = false := by decide
    rw [grpRev]
    rw [List.filter_cons, List.filter_cons, hcomma, hd,
        if_neg (by decide : ¬(false = true)), if_pos rfl]
    rw [grpRev_filter 2 ds (fun c hc => h c (List.mem_cons_of_mem d hc))]
  | k + 1, d :: ds, h => by
    have hd : (d != ',') = true := by
      rcases h d (List.mem_cons_self d ds) with ⟨h1, h2⟩
      simp only [bne_iff_ne, ne_eq]
      intro he
      subst he
      exact absurd h1 (by decide)
    rw [grpRev]
    rw [List.filter_cons, hd, if_pos rfl]
    rw [grpRev_filter k ds (fun c hc => h c (List.mem_cons_of_mem d hc))]

theorem groupThousands_filter (ds : List Char)
    (h : ∀ c ∈ ds, 48 ≤ c.toNat ∧ c.toNat ≤ 57) :
    (groupThousands ds).filter (fun c => c != ',') = ds := by
  rw [groupThousands, List.filter_reverse,
      grpRev_filter 3 ds.reverse (fun c hc => h c (List.mem_reverse.mp hc)),
      List.reverse_reverse]

/-- Claim C7: for numeric input (modelled on the integer fragment where
`float` conversion is exact), `format_currency` produces the dollar string
with two decimals whose digit part is exactly the number's decimal digits
with commas inserted (conjuncts 1-3); for input `float` cannot convert, the
original value is returned unchanged and nothing is raised (conjunct 4); and
the spec's two examples hold (conjuncts 5-6). -/
theorem claim7_format_currency :
    (∀ n : Int, n.natAbs ≤ 2 ^ 53 →
      format_currency (.int n) = .str (String.mk (dollarChars n))) ∧
    (∀ n : Nat, (groupThousands (natToChars n)).filter (fun c => c != ',') = natToChars n) ∧
    (∀ n : Nat, charsVal (natToChars n) = n) ∧
    (∀ v : PyVal, pyFloatOpt v = Option.none → format_currency v = v) ∧
    format_currency (.int 1000) = .str "$1,000.00" ∧
    format_currency (.str "abc") = .str "abc" := by
  refine ⟨fun n _ => rfl, ?_, charsVal_natToChars, ?_, by decide, by decide⟩
  · intro n
    exact groupThousands_filter _ (natToChars_digits n)
  · intro v h
    rw [format_currency, h]

/-- Closed instances of claim C7, with each hypothesis discharged: 1000 is
within the exactly-representable range and formats to `$1,000.00`; `None`
cannot be converted and is returned unchanged. -/
theorem claim7_witness :
    format_currency (.int 1000) = .str (String.mk (dollarChars 1000)) ∧
    format_currency PyVal.none = PyVal.none := by
  exact ⟨claim7_format_currency.1 1000 (by norm_num),
         claim7_format_currency.2.2.2.1 PyVal.none rfl⟩

/-! ### Slug generation -/

theorem string_mk_mem_iff (l : List Char) (ex : List String) :
    String.mk l ∈ ex ↔ l ∈ ex.map String.data := by
  constructor
  · intro h
    exact List.mem_map.mpr ⟨String.mk l, h, rfl⟩
  · intro h
    rcases List.mem_map.mp h with ⟨s, hs, hd⟩
    cases s with
    | mk data =>
      cases hd
      exact hs

/-- Claim C3: the base slug is returned unchanged whenever it does not
collide with the already-used set; the collision example appends `-1`; and
the accented example strips the accent and hyphenates. -/
theorem claim3_gen_slug_examples :
    (∀ (s : String) (ex : List String), slug_base_str s ∉ ex →
      gen_slug s ex '-' = slug_base_str s) ∧
    gen_slug "my-post" ["my-post"] '-' = "my-post-1" ∧
    gen_slug "Café Au Lait" [] '-' = "cafe-au-lait" := by
  refine ⟨?_, by decide, by decide⟩
  intro s ex h
  have hb : slugBase '-' s.data ∉ ex.map String.data := by
    intro hc
    exact h ((string_mk_mem_iff _ ex).mpr hc)
  rw [gen_slug, gen_slug_chars, genSlugFrom, if_neg hb]
  rfl

/-- Closed instance of the first conjunct of claim C3: `"hello world"` does
not collide with `{"other"}` and keeps its base slug. -/
theorem claim3_witness : gen_slug "hello world" ["other"] '-' = "hello-world" := by
  have h := claim3_gen_slug_examples.1 "hello world" ["other"] (by decide)
  exact h.trans (by decide)

theorem slugCand_inj (base : List Char) :
    ∀ (i j : Nat), slugCand base i = slugCand base j → i = j
  | 0, 0, _ => rfl
  | 0, j + 1, h => by
    exfalso
    have hl := congrArg List.length h
    simp only [slugCand, List.length_append, List.length_cons] at hl
    omega
  | i + 1, 0, h => by
    exfalso
    have hl := congrArg List.length h
    simp only [slugCand, List.length_append, List.length_cons] at hl
    omega
  | i + 1, j + 1, h => by
    simp only [slugCand, List.append_cancel_left_eq, List.cons.injEq, true_and] at h
    rw [natToChars_inj (i + 1) (j + 1) h]

theorem slug_exists_candidate (base : List Char) (existing : List (List Char)) :
    ∃ k, k ≤ existing.length ∧ slugCand base k ∉ existing := by
  by_contra hc
  push_neg at hc
  have hnodup : ((List.range (existing.length + 1)).map (slugCand base)).Nodup := by
    refine List.Nodup.map_on ?_ (List.nodup_range _)
    intro i _ j _ hij
    exact slugCand_inj base i j hij
  have hsub : ((List.range (existing.length + 1)).map (slugCand base)) ⊆ existing := by
    intro x hx
    rcases List.mem_map.mp hx with ⟨k, hk, rfl⟩
    exact hc k (Nat.lt_succ_iff.mp (List.mem_range.mp hk))
  have hlen := (List.subperm_of_subset hnodup hsub).length_le
  simp at hlen

theorem genSlugFrom_spec (existing : List (List Char)) (base : List Char) :
    ∀ (fuel c : Nat),
    (∃ k, k < fuel ∧ slugCand base (c + k) ∉ existing) →
    genSlugFrom existing base (slugCand base c) (c + 1) fuel ∉ existing := by
  intro fuel
  induction fuel with
  | zero =>
    rintro c ⟨k, hk, _⟩
    omega
  | succ f ih =>
    rintro c ⟨k, hk, hout⟩
    rw [genSlugFrom]
    by_cases hin : slugCand base c ∈ existing
    · rw [if_pos hin]
      have hknz : k ≠ 0 := by
        intro h0
        subst h0
        exact hout hin
      have hstep : (base ++ '-' :: natToChars (c + 1)) = slugCand base (c + 1) := rfl
      rw [hstep]
      exact ih (c + 1) ⟨k - 1, by omega, by
        rw [show c + 1 + (k - 1) = c + k from by omega]
        exact hout⟩
    · rw [if_neg hin]
      exact hin

theorem genSlugFrom_fuel (existing : List (List Char)) (base : List Char) :
    ∀ (fuel : Nat) (slug : List Char) (counter : Nat),
    genSlugFrom existing base slug counter fuel ∉ existing →
    ∀ extra, genSlugFrom existing base slug counter (fuel + extra) =
      genSlugFrom existing base slug counter fuel := by
  intro fuel
  induction fuel with
  | zero =>
    intro slug counter h extra
    have h' : slug ∉ existing := h
    cases extra with
    | zero => rfl
    | succ e =>
      rw [Nat.zero_add]
      conv_lhs => rw [genSlugFrom]
      rw [if_neg h']
      rfl
  | succ f ih =>
    intro slug counter h extra
    rw [show f + 1 + extra = (f + extra) + 1 from by omega]
    by_cases hin : slug ∈ existing
    · rw [genSlugFrom, if_pos hin] at h
      conv_lhs => rw [genSlugFrom]
      conv_rhs => rw [genSlugFrom]
      simp only [if_pos hin]
      exact ih _ _ h extra
    · conv_lhs => rw [genSlugFrom]
      conv_rhs => rw [genSlugFrom]
      simp only [if_neg hin]

/-- Claim C4: for every input string and every list of existing slugs,
`gen_slug`'s result is not a member of the existing set, and the collision
loop genuinely terminates within its `existing.length + 1` iterations — any
amount of extra fuel leaves the result unchanged. -/
theorem claim4_slug_unique (s : String) (ex : List String) :
    gen_slug s ex '-' ∉ ex ∧
    (∀ extra : Nat,
      genSlugFrom (ex.map String.data) (slugBase '-' s.data) (slugBase '-' s.data) 1
        ((ex.map String.data).length + 1 + extra) = (gen_slug s ex '-').data) := by
  have hmain : gen_slug_chars s.data (ex.map String.data) '-' ∉ ex.map String.data := by
    rw [gen_slug_chars]
    obtain ⟨k, hk, hout⟩ :=
      slug_exists_candidate (slugBase '-' s.data) (ex.map String.data)
    exact genSlugFrom_spec (ex.map String.data) (slugBase '-' s.data)
      ((ex.map String.data).length + 1) 0
      ⟨k, by omega, by rw [Nat.zero_add]; exact hout⟩
  constructor
  · intro hc
    exact hmain ((string_mk_mem_iff _ ex).mp hc)
  · intro extra
    exact genSlugFrom_fuel (ex.map String.data) (slugBase '-' s.data)
      ((ex.map String.data).length + 1) (slugBase '-' s.data) 1 hmain extra

/-! ### Association-list dictionary lemmas -/

theorem lookup_cons_self {α : Type} (k : String) (b : α) (t : List (String × α)) :
    List.lookup k ((k, b) :: t) = some b := by
  simp [List.lookup]

theorem lookup_cons_ne {α : Type} (k a : String) (h : k ≠ a) (b : α) (t : List (String × α)) :
    List.lookup k ((a, b) :: t) = List.lookup k t := by
  simp [List.lookup, beq_false_of_ne h]

theorem lookup_append {α : Type} (k : String) :
    ∀ (l1 l2 : List (String × α)),
    List.lookup k (l1 ++ l2) = (List.lookup k l1).or (List.lookup k l2)
  | [], l2 => by simp
  | (a, b) :: t, l2 => by
    by_cases hka : k = a
    · subst hka
      rw [List.cons_append, lookup_cons_self, lookup_cons_self]
      rfl
    · rw [List.cons_append, lookup_cons_ne k a hka, lookup_cons_ne k a hka,
          lookup_append k t l2]

theorem lookup_eq_none_of_not_mem_keys {α : Type} (k : String) :
    ∀ (l : List (String × α)), k ∉ l.map Prod.fst → List.lookup k l = Option.none
  | [], _ => rfl
  | (a, b) :: t, h => by
    simp only [List.map_cons, List.mem_cons] at h
    push_neg at h
    rw [lookup_cons_ne k a h.1, lookup_eq_none_of_not_mem_keys k t h.2]

theorem lookup_some_mem {α : Type} (k : String) (w : α) :
    ∀ (l : List (String × α)), List.lookup k l = some w → (k, w) ∈ l
  | [], h => by simp at h
  | (a, b) :: t, h => by
    by_cases hka : k = a
    · subst hka
      rw [lookup_cons_self] at h
      cases h
      exact List.mem_cons_self _ _
    · rw [lookup_cons_ne k a hka] at h
      exact List.mem_cons_of_mem _ (lookup_some_mem k w t h)

theorem mem_lookup_of_nodup {α : Type} (k : String) (w : α) :
    ∀ (l : List (String × α)), (l.map Prod.fst).Nodup → (k, w) ∈ l →
    List.lookup k l = some w
  | [], _, h => by simp at h
  | (a, b) :: t, hn, h => by
    simp only [List.map_cons, List.nodup_cons] at hn
    rcases List.mem_cons.mp h with he | ht
    · cases he
      exact lookup_cons_self k w t
    · have hka : k ≠ a := by
        intro he
        subst he
        exact hn.1 (List.mem_map_of_mem Prod.fst ht)
      rw [lookup_cons_ne k a hka]
      exact mem_lookup_of_nodup k w t hn.2 ht

theorem lookup_map_replace {α : Type} (k : String) (v : α) :
    ∀ (d : List (String × α)),
    List.lookup k (d.map (fun p => if p.1 = k then (k, v) else p)) =
      if (List.lookup k d).isSome then some v else Option.none
  | [] => rfl
  | (a, b) :: t => by
    by_cases hka : a = k
    · subst hka
      simp only [List.map_cons, if_pos rfl, if_true]
      rw [lookup_cons_self, lookup_cons_self]
      rfl
    · simp only [List.map_cons, if_neg hka]
      rw [lookup_cons_ne k a (Ne.symm hka), lookup_cons_ne k a (Ne.symm hka),
          lookup_map_replace k v t]

theorem lookup_map_replace_ne {α : Type} (k k' : String) (v : α) (h : k' ≠ k) :
    ∀ (d : List (String × α)),
    List.lookup k' (d.map (fun p => if p.1 = k then (k, v) else p)) = List.lookup k' d
  | [] => rfl
  | (a, b) :: t => by
    by_cases hka : a = k
    · subst hka
      simp only [List.map_cons, if_pos rfl, if_true]
      rw [lookup_cons_ne k' a h, lookup_cons_ne k' a h, lookup_map_replace_ne a k' v h t]
    · simp only [List.map_cons, if_neg hka]
      by_cases hk'a : k' = a
      · subst hk'a
        rw [lookup_cons_self, lookup_cons_self]
      · rw [lookup_cons_ne k' a hk'a, lookup_cons_ne k' a hk'a,
            lookup_map_replace_ne k k' v h t]

theorem lookup_dictInsert_self {α : Type} (d : List (String × α)) (k : String) (v : α) :
    List.lookup k (dictInsert d k v) = some v := by
  rw [dictInsert]
  by_cases hs : (List.lookup k d).isSome
  · rw [if_pos hs, lookup_map_replace, if_pos hs]
  · rw [if_neg hs, lookup_append]
    rw [Option.not_isSome_iff_eq_none] at hs
    rw [hs, lookup_cons_self]
    rfl

theorem lookup_dictInsert_ne {α : Type} (d : List (String × α)) (k k' : String) (v : α)
    (h : k' ≠ k) : List.lookup k' (dictInsert d k v) = List.lookup k' d := by
  rw [dictInsert]
  by_cases hs : (List.lookup k d).isSome
  · rw [if_pos hs, lookup_map_replace_ne k k' v h]
  · rw [if_neg hs, lookup_append, lookup_cons_ne k' k h]
    simp

theorem lookup_dictSetdefault_self {α : Type} (d : List (String × α)) (k : String) (v : α) :
    List.lookup k (dictSetdefault d k v) = some ((List.lookup k d).getD v) := by
  rw [dictSetdefault]
  by_cases hs : (List.lookup k d).isSome
  · rw [if_pos hs]
    rcases Option.isSome_iff_exists.mp hs with ⟨w, hw⟩
    rw [hw]
    rfl
  · rw [if_neg hs, lookup_append]
    rw [Option.not_isSome_iff_eq_none] at hs
    rw [hs, lookup_cons_self]
    rfl

theorem lookup_dictSetdefault_ne {α : Type} (d : List (String × α)) (k k' : String) (v : α)
    (h : k' ≠ k) : List.lookup k' (dictSetdefault d k v) = List.lookup k' d := by
  rw [dictSetdefault]
  by_cases hs : (List.lookup k d).isSome
  · rw [if_pos hs]
  · rw [if_neg hs, lookup_append, lookup_cons_ne k' k h]
    simp

theorem keys_dictInsert {α : Type} (d : List (String × α)) (k K : String) (v : α) :
    K ∈ (dictInsert d k v).map Prod.fst ↔ K ∈ d.map Prod.fst ∨ K = k := by
  rw [dictInsert]
  by_cases hs : (List.lookup k d).isSome
  · rw [if_pos hs]
    rw [List.map_map]
    have hfst : ∀ p ∈ d, (Prod.fst ∘ fun p => if p.1 = k then (k, v) else p) p = p.1 := by
      intro p _
      by_cases hp : p.1 = k
      · simp [hp]
      · simp [hp]
    rw [List.map_congr_left hfst]
    constructor
    · intro h
      exact Or.inl h
    · intro h
      rcases h with h | h
      · exact h
      · subst h
        rcases Option.isSome_iff_exists.mp hs with ⟨w, hw⟩
        exact List.mem_map_of_mem Prod.fst (lookup_some_mem K w d hw)
  · rw [if_neg hs]
    simp

theorem keys_dictSetdefault {α : Type} (d : List (String × α)) (k K : String) (v : α) :
    K ∈ (dictSetdefault d k v).map Prod.fst ↔ K ∈ d.map Prod.fst ∨ K = k := by
  rw [dictSetdefault]
  by_cases hs : (List.lookup k d).isSome
  · rw [if_pos hs]
    constructor
    · exact Or.inl
    · intro h
      rcases h with h | h
      · exact h
      · subst h
        rcases Option.isSome_iff_exists.mp hs with ⟨w, hw⟩
        exact List.mem_map_of_mem Prod.fst (lookup_some_mem K w d hw)
  · rw [if_neg hs]
    simp

theorem lookup_isSome_of_mem_keys {α : Type} (k : String) :
    ∀ (l : List (String × α)), k ∈ l.map Prod.fst → (List.lookup k l).isSome = true
  | [], h => by simp at h
  | (a, b) :: t, h => by
    by_cases hka : k = a
    · subst hka
      rw [lookup_cons_self]
      rfl
    · rw [lookup_cons_ne k a hka]
      simp only [List.map_cons, List.mem_cons] at h
      rcases h with h | h
      · exact absurd h hka
      · exact lookup_isSome_of_mem_keys k t h

theorem nodup_dictInsert {α : Type} (d : List (String × α)) (k : String) (v : α)
    (h : (d.map Prod.fst).Nodup) : ((dictInsert d k v).map Prod.fst).Nodup := by
  rw [dictInsert]
  by_cases hs : (List.lookup k d).isSome
  · rw [if_pos hs, List.map_map]
    have hfst : ∀ p ∈ d, (Prod.fst ∘ fun p => if p.1 = k then (k, v) else p) p = p.1 := by
      intro p _
      by_cases hp : p.1 = k
      · simp [hp]
      · simp [hp]
    rw [List.map_congr_left hfst]
    exact h
  · rw [if_neg hs]
    simp only [List.map_append, List.map_cons, List.map_nil]
    rw [List.nodup_append]
    refine ⟨h, List.nodup_singleton k, ?_⟩
    intro a ha hb
    simp only [List.mem_singleton] at hb
    subst hb
    exact hs (lookup_isSome_of_mem_keys a d ha)

theorem nodup_dictSetdefault {α : Type} (d : List (String × α)) (k : String) (v : α)
    (h : (d.map Prod.fst).Nodup) : ((dictSetdefault d k v).map Prod.fst).Nodup := by
  rw [dictSetdefault]
  by_cases hs : (List.lookup k d).isSome
  · rw [if_pos hs]
    exact h
  · rw [if_neg hs]
    simp only [List.map_append, List.map_cons, List.map_nil]
    rw [List.nodup_append]
    refine ⟨h, List.nodup_singleton k, ?_⟩
    intro a ha hb
    simp only [List.mem_singleton] at hb
    subst hb
    exact hs (lookup_isSome_of_mem_keys a d ha)

/-! ### `from_object` and `setdefault`-merge lemmas -/

theorem from_object_lookup_absent (k : String) :
    ∀ (caller d : List (String × ConfigVal)), List.lookup k caller = Option.none →
    List.lookup k (from_object d caller) = List.lookup k d
  | [], d, _ => rfl
  | (a, b) :: t, d, h => by
    by_cases hka : k = a
    · subst hka
      rw [lookup_cons_self] at h
      cases h
    · rw [lookup_cons_ne k a hka] at h
      rw [from_object, List.foldl_cons]
      rw [show List.foldl
            (fun acc p => if pyIsUpperStr p.1 then dictInsert acc p.1 p.2 else acc)
            (if pyIsUpperStr a then dictInsert d a b else d) t =
          from_object (if pyIsUpperStr a then dictInsert d a b else d) t from rfl]
      rw [from_object_lookup_absent k t _ h]
      by_cases hu : pyIsUpperStr a
      · rw [if_pos hu, lookup_dictInsert_ne d a k b hka]
      · rw [if_neg hu]

theorem from_object_lookup_present (k : String) (w : ConfigVal) :
    ∀ (caller d : List (String × ConfigVal)), (caller.map Prod.fst).Nodup →
    List.lookup k caller = some w → pyIsUpperStr k = true →
    List.lookup k (from_object d caller) = some w
  | [], d, _, h, _ => by simp at h
  | (a, b) :: t, d, hn, h, hu => by
    simp only [List.map_cons, List.nodup_cons] at hn
    rw [from_object, List.foldl_cons]
    rw [show List.foldl
          (fun acc p => if pyIsUpperStr p.1 then dictInsert acc p.1 p.2 else acc)
          (if pyIsUpperStr a then dictInsert d a b else d) t =
        from_object (if pyIsUpperStr a then dictInsert d a b else d) t from rfl]
    by_cases hka : k = a
    · subst hka
      rw [lookup_cons_self] at h
      cases h
      have ht : List.lookup k t = Option.none :=
        lookup_eq_none_of_not_mem_keys k t hn.1
      rw [from_object_lookup_absent k t _ ht, if_pos hu, lookup_dictInsert_self]
    · rw [lookup_cons_ne k a hka] at h
      exact from_object_lookup_present k w t _ hn.2 h hu

theorem from_object_keys (K : String) :
    ∀ (caller d : List (String × ConfigVal)),
    K ∈ (from_object d caller).map Prod.fst →
    K ∈ d.map Prod.fst ∨ (K ∈ caller.map Prod.fst ∧ pyIsUpperStr K = true)
  | [], d, h => Or.inl h
  | (a, b) :: t, d, h => by
    rw [from_object, List.foldl_cons] at h
    rw [show List.foldl
          (fun acc p => if pyIsUpperStr p.1 then dictInsert acc p.1 p.2 else acc)
          (if pyIsUpperStr a then dictInsert d a b else d) t =
        from_object (if pyIsUpperStr a then dictInsert d a b else d) t from rfl] at h
    rcases from_object_keys K t _ h with hd | hc
    · by_cases hu : pyIsUpperStr a
      · rw [if_pos hu] at hd
        rcases (keys_dictInsert d a K b).mp hd with hd' | he
        · exact Or.inl hd'
        · subst he
          exact Or.inr ⟨by simp, hu⟩
      · rw [if_neg hu] at hd
        exact Or.inl hd
    · exact Or.inr ⟨by simp [hc.1], hc.2⟩

theorem from_object_nodup :
    ∀ (caller d : List (String × ConfigVal)), (d.map Prod.fst).Nodup →
    ((from_object d caller).map Prod.fst).Nodup
  | [], d, h => h
  | (a, b) :: t, d, h => by
    rw [from_object, List.foldl_cons]
    rw [show List.foldl
          (fun acc p => if pyIsUpperStr p.1 then dictInsert acc p.1 p.2 else acc)
          (if pyIsUpperStr a then dictInsert d a b else d) t =
        from_object (if pyIsUpperStr a then dictInsert d a b else d) t from rfl]
    apply from_object_nodup t
    by_cases hu : pyIsUpperStr a
    · rw [if_pos hu]
      exact nodup_dictInsert d a b h
    · rw [if_neg hu]
      exact h

theorem mergeDefaults_lookup_absent (k : String) :
    ∀ (dfl d : List (String × ConfigVal)), k ∉ dfl.map Prod.fst →
    List.lookup k (mergeDefaults d dfl) = List.lookup k d
  | [], d, _ => rfl
  | (a, b) :: t, d, h => by
    simp only [List.map_cons, List.mem_cons] at h
    push_neg at h
    rw [mergeDefaults, List.foldl_cons]
    rw [show List.foldl (fun acc p => dictSetdefault acc p.1 p.2) (dictSetdefault d a b) t =
        mergeDefaults (dictSetdefault d a b) t from rfl]
    rw [mergeDefaults_lookup_absent k t _ h.2, lookup_dictSetdefault_ne d a k b h.1]

theorem mergeDefaults_lookup (k : String) (v : ConfigVal) :
    ∀ (dfl d : List (String × ConfigVal)), (dfl.map Prod.fst).Nodup →
    (k, v) ∈ dfl →
    List.lookup k (mergeDefaults d dfl) = some ((List.lookup k d).getD v)
  | [], _, _, h => by simp at h
  | (a, b) :: t, d, hn, h => by
    simp only [List.map_cons, List.nodup_cons] at hn
    rw [mergeDefaults, List.foldl_cons]
    rw [show List.foldl (fun acc p => dictSetdefault acc p.1 p.2) (dictSetdefault d a b) t =
        mergeDefaults (dictSetdefault d a b) t from rfl]
    rcases List.mem_cons.mp h with he | ht
    · cases he
      have hnt : k ∉ t.map Prod.fst := hn.1
      rw [mergeDefaults_lookup_absent k t _ hnt, lookup_dictSetdefault_self]
    · have hka : k ≠ a := by
        intro he
        subst he
        exact hn.1 (List.mem_map_of_mem Prod.fst ht)
      rw [mergeDefaults_lookup k v t _ hn.2 ht, lookup_dictSetdefault_ne d a k b hka]

theorem mergeDefaults_keys (K : String) :
    ∀ (dfl d : List (String × ConfigVal)),
    K ∈ (mergeDefaults d dfl).map Prod.fst →
    K ∈ d.map Prod.fst ∨ K ∈ dfl.map Prod.fst
  | [], d, h => Or.inl h
  | (a, b) :: t, d, h => by
    rw [mergeDefaults, List.foldl_cons] at h
    rw [show List.foldl (fun acc p => dictSetdefault acc p.1 p.2) (dictSetdefault d a b) t =
        mergeDefaults (dictSetdefault d a b) t from rfl] at h
    rcases mergeDefaults_keys K t _ h with hd | ht
    · rcases (keys_dictSetdefault d a K b).mp hd with hd' | he
      · exact Or.inl hd'
      · subst he
        exact Or.inr (by simp)
    · exact Or.inr (by simp [ht])

theorem mergeDefaults_nodup :
    ∀ (dfl d : List (String × ConfigVal)), (d.map Prod.fst).Nodup →
    ((mergeDefaults d dfl).map Prod.fst).Nodup
  | [], _, h => h
  | (a, b) :: t, d, h => by
    rw [mergeDefaults, List.foldl_cons]
    rw [show List.foldl (fun acc p => dictSetdefault acc p.1 p.2) (dictSetdefault d a b) t =
        mergeDefaults (dictSetdefault d a b) t from rfl]
    exact mergeDefaults_nodup t _ (nodup_dictSetdefault d a b h)

/-! ### `get_namespace` lookup characterisation -/

theorem find?_unique {α : Type} (p : α → Bool) (q : α) :
    ∀ (l : List α), (∀ x ∈ l, p x = true → x = q) → q ∈ l → p q = true →
    List.find? p l = some q
  | [], _, hq, _ => by simp at hq
  | a :: t, huniq, hq, hp => by
    cases hpa : p a
    · rw [List.find?_cons, hpa]
      have hqa : q ≠ a := by
        intro he
        subst he
        rw [hp] at hpa
        cases hpa
      rcases List.mem_cons.mp hq with he | ht
      · exact absurd he.symm (Ne.symm hqa)
      · exact find?_unique p q t (fun x hx hpx => huniq x (List.mem_cons_of_mem a hx) hpx)
          ht hp
    · rw [List.find?_cons, hpa]
      rw [huniq a (List.mem_cons_self a t) hpa]

theorem get_namespace_lookup (ns : String) (s : String) :
    ∀ (d : List (String × ConfigVal)) (rv : List (String × ConfigVal)),
    List.lookup s
      (d.foldl
        (fun rv p =>
          if strStarts p.1 ns then
            dictInsert rv (pyLowerStr (strDropLeft p.1 ns.data.length)) p.2
          else rv)
        rv) =
      match d.reverse.find?
          (fun p => strStarts p.1 ns &&
            (pyLowerStr (strDropLeft p.1 ns.data.length) == s)) with
      | some p => some p.2
      | Option.none => List.lookup s rv
  | [], rv => by simp
  | p :: t, rv => by
    rw [List.foldl_cons, get_namespace_lookup ns s t _, List.reverse_cons, List.find?_append]
    cases hf : List.find?
        (fun p => strStarts p.1 ns &&
          (pyLowerStr (strDropLeft p.1 ns.data.length) == s)) t.reverse with
    | some q => rfl
    | none =>
      simp only [Option.none_or]
      rw [List.find?_singleton]
      by_cases hst : strStarts p.1 ns = true
      · by_cases hkey : pyLowerStr (strDropLeft p.1 ns.data.length) = s
        · rw [if_pos hst, hkey, lookup_dictInsert_self]
          simp [hst]
        · have hcond : (strStarts p.1 ns &&
              (pyLowerStr (strDropLeft p.1 ns.data.length) == s)) = false := by
            rw [Bool.and_eq_false_iff]
            right
            exact beq_false_of_ne hkey
          rw [hcond, if_pos hst,
              lookup_dictInsert_ne rv (pyLowerStr (strDropLeft p.1 ns.data.length)) s p.2
                (Ne.symm hkey)]
          simp
      · have hcond : (strStarts p.1 ns &&
            (pyLowerStr (strDropLeft p.1 ns.data.length) == s)) = false := by
          rw [Bool.and_eq_false_iff]
          left
          exact Bool.eq_false_iff.mpr hst
        rw [hcond, if_neg hst]
        simp

/-! ### Injectivity of lowercasing on strings without lowercase letters -/

theorem isLower_iff (c : Char) : c.isLower = true ↔ 97 ≤ c.toNat ∧ c.toNat ≤ 122 := by
  simp [Char.isLower, Char.toNat]
  exact Iff.rfl

theorem char_toNat_inj (c d : Char) (h : c.toNat = d.toNat) : c = d := by
  have h1 : Char.ofNat c.toNat = Char.ofNat d.toNat := by rw [h]
  rwa [Char.ofNat_toNat, Char.ofNat_toNat] at h1

theorem valid_plus32 (n : Nat) (h1 : 65 ≤ n) (h2 : n ≤ 90) : (n + 32).isValidChar :=
  Or.inl (by omega)

theorem toNat_pyLowerChar_upper (c : Char) (h1 : 65 ≤ c.toNat) (h2 : c.toNat ≤ 90) :
    (pyLowerChar c).toNat = c.toNat + 32 := by
  rw [pyLowerChar, if_pos ⟨h1, h2⟩, toNat_ofNat_valid _ (valid_plus32 _ h1 h2)]

theorem pyLowerChar_inj (c d : Char) (hc : ¬ c.isLower = true) (hd : ¬ d.isLower = true)
    (h : pyLowerChar c = pyLowerChar d) : c = d := by
  rw [isLower_iff] at hc hd
  by_cases hcu : 65 ≤ c.toNat ∧ c.toNat ≤ 90 <;> by_cases hdu : 65 ≤ d.toNat ∧ d.toNat ≤ 90
  · apply char_toNat_inj
    have h1 := congrArg Char.toNat h
    rw [toNat_pyLowerChar_upper c hcu.1 hcu.2, toNat_pyLowerChar_upper d hdu.1 hdu.2] at h1
    omega
  · exfalso
    apply hd
    have h1 := congrArg Char.toNat h
    rw [toNat_pyLowerChar_upper c hcu.1 hcu.2] at h1
    rw [pyLowerChar, if_neg hdu] at h1
    omega
  · exfalso
    apply hc
    have h1 := congrArg Char.toNat h
    rw [toNat_pyLowerChar_upper d hdu.1 hdu.2] at h1
    rw [pyLowerChar, if_neg hcu] at h1
    omega
  · rwa [pyLowerChar, if_neg hcu, pyLowerChar, if_neg hdu] at h

theorem map_pyLowerChar_inj :
    ∀ (l m : List Char), (∀ c ∈ l, ¬ c.isLower = true) → (∀ c ∈ m, ¬ c.isLower = true) →
    l.map pyLowerChar = m.map pyLowerChar → l = m
  | [], [], _, _, _ => rfl
  | [], _ :: _, _, _, h => by simp at h
  | _ :: _, [], _, _, h => by simp at h
  | c :: l, d :: m, hl, hm, h => by
    simp only [List.map_cons, List.cons.injEq] at h
    rw [pyLowerChar_inj c d (hl c (List.mem_cons_self c l)) (hm d (List.mem_cons_self d m)) h.1,
        map_pyLowerChar_inj l m (fun x hx => hl x (List.mem_cons_of_mem c hx))
          (fun x hx => hm x (List.mem_cons_of_mem d hx)) h.2]

theorem no_lower_of_pyIsUpper (K : String) (h : pyIsUpperStr K = true) :
    ∀ c ∈ K.data, ¬ c.isLower = true := by
  rw [pyIsUpperStr, Bool.and_eq_true] at h
  intro c hc
  have := List.all_eq_true.mp h.2 c hc
  simp at this
  simp [this]

theorem nsKey_inj_of_upper (K k : String)
    (hKu : ∀ c ∈ K.data, ¬ c.isLower = true) (hku : ∀ c ∈ k.data, ¬ c.isLower = true)
    (hKs : strStarts K "EA_" = true) (hks : strStarts k "EA_" = true)
    (h : nsKey K = nsKey k) : K = k := by
  have hd : (K.data.drop 3).map pyLowerChar = (k.data.drop 3).map pyLowerChar := by
    have := congrArg String.data h
    simpa [nsKey, pyLowerStr, strDropLeft] using this
  have hdrop : K.data.drop 3 = k.data.drop 3 :=
    map_pyLowerChar_inj _ _
      (fun c hc => hKu c (List.drop_subset 3 K.data hc))
      (fun c hc => hku c (List.drop_subset 3 k.data hc))
      hd
  have hKdec : K.data = ("EA_" : String).data ++ K.data.drop 3 := by
    rcases List.isPrefixOf_iff_prefix.mp hKs with ⟨t, ht⟩
    have h3 : (("EA_" : String).data ++ t).drop 3 = t := by
      rw [show (3 : Nat) = (("EA_" : String).data).length from rfl, List.drop_left]
    rw [← ht, h3]
  have hkdec : k.data = ("EA_" : String).data ++ k.data.drop 3 := by
    rcases List.isPrefixOf_iff_prefix.mp hks with ⟨t, ht⟩
    have h3 : (("EA_" : String).data ++ t).drop 3 = t := by
      rw [show (3 : Nat) = (("EA_" : String).data).length from rfl, List.drop_left]
    rw [← ht, h3]
  apply String.ext
  rw [hKdec, hkdec, hdrop]

/-! ### The merged effective configuration -/

set_option maxHeartbeats 400000 in
theorem effective_config_lookup (flaskD caller : List (String × ConfigVal))
    (hF : ∀ p ∈ flaskD, strStarts p.1 "EA_" = false)
    (hFn : (flaskD.map Prod.fst).Nodup)
    (hCn : (caller.map Prod.fst).Nodup)
    (k : String) (v : ConfigVal) (hkv : (k, v) ∈ default_config) :
    List.lookup (nsKey k) (effective_config flaskD caller) =
      some ((List.lookup k caller).getD v) := by
  have hD1 : (default_config.map Prod.fst).Nodup := by decide
  have hD2 : ∀ p ∈ default_config, strStarts p.1 "EA_" = true := by decide
  have hD3 : ∀ p ∈ default_config, pyIsUpperStr p.1 = true := by decide
  have hD4 : ∀ p ∈ default_config, ∀ q ∈ default_config,
      nsKey p.1 = nsKey q.1 → p.1 = q.1 := by decide
  have hflask : List.lookup k flaskD = Option.none := by
    cases hfk : List.lookup k flaskD with
    | none => rfl
    | some x =>
      have hmem := lookup_some_mem k x flaskD hfk
      have h3 : strStarts k "EA_" = false := hF (k, x) hmem
      have h2 := hD2 (k, v) hkv
      rw [h2] at h3
      cases h3
  have hlookup_m : List.lookup k (mergeDefaults (from_object flaskD caller) default_config) =
      some ((List.lookup k caller).getD v) := by
    rw [mergeDefaults_lookup k v default_config _ hD1 hkv]
    congr 1
    cases hc : List.lookup k caller with
    | none =>
      rw [from_object_lookup_absent k caller flaskD hc, hflask]
    | some w =>
      rw [from_object_lookup_present k w caller flaskD hCn hc (hD3 (k, v) hkv)]
  have hnodup : ((mergeDefaults (from_object flaskD caller) default_config).map Prod.fst).Nodup :=
    mergeDefaults_nodup default_config _ (from_object_nodup caller flaskD hFn)
  have huniq : ∀ p ∈ mergeDefaults (from_object flaskD caller) default_config,
      strStarts p.1 "EA_" = true →
      pyLowerStr (strDropLeft p.1 ("EA_" : String).data.length) =
        pyLowerStr (strDropLeft k ("EA_" : String).data.length) → p.1 = k := by
    intro p hp hps hkey
    have hkey' : nsKey p.1 = nsKey k := hkey
    have hkeymem : p.1 ∈ (mergeDefaults (from_object flaskD caller) default_config).map Prod.fst :=
      List.mem_map_of_mem Prod.fst hp
    rcases mergeDefaults_keys p.1 default_config _ hkeymem with h0 | hdfl
    · rcases from_object_keys p.1 caller flaskD h0 with hfl | hcal
      · exfalso
        rcases List.mem_map.mp hfl with ⟨q, hq, hq1⟩
        have hqf : strStarts p.1 "EA_" = false := hq1 ▸ hF q hq
        rw [hps] at hqf
        cases hqf
      · exact nsKey_inj_of_upper p.1 k
          (no_lower_of_pyIsUpper _ hcal.2) (no_lower_of_pyIsUpper _ (hD3 (k, v) hkv))
          hps (hD2 (k, v) hkv) hkey'
    · rcases List.mem_map.mp hdfl with ⟨q, hq, hq1⟩
      have hq2 := hD4 q hq (k, v) hkv (by rw [hq1]; exact hkey')
      rw [← hq1]
      exact hq2
  have hfind : List.find?
      (fun p => strStarts p.1 "EA_" &&
        (pyLowerStr (strDropLeft p.1 ("EA_" : String).data.length) == nsKey k))
      (mergeDefaults (from_object flaskD caller) default_config).reverse =
      some (k, (List.lookup k caller).getD v) := by
    apply find?_unique
    · rintro ⟨x1, x2⟩ hx hpx
      rw [Bool.and_eq_true] at hpx
      have h1 : x1 = k := huniq (x1, x2) (List.mem_reverse.mp hx) hpx.1
        (beq_iff_eq.mp hpx.2)
      subst h1
      have h2 := mem_lookup_of_nodup x1 x2 _ hnodup (List.mem_reverse.mp hx)
      rw [hlookup_m] at h2
      cases h2
      rfl
    · exact List.mem_reverse.mpr (lookup_some_mem k _ _ hlookup_m)
    · rw [Bool.and_eq_true]
      exact ⟨hD2 (k, v) hkv, beq_iff_eq.mpr rfl⟩
  rw [effective_config, get_namespace,
      get_namespace_lookup "EA_" (nsKey k) (mergeDefaults (from_object flaskD caller) default_config) [],
      hfind]

/-- Claim C1: for every key of the default table, the merged effective
configuration exposes, under the stripped lowercased key, the caller's value
when the caller-supplied configuration defines the key and the default value
when it does not; and with no caller configuration at all the result is
exactly the defaults.  The hypotheses state what holds of the real inputs:
Flask's built-in defaults contain no `EA_`-prefixed keys and both dicts have
unique keys (attribute names of an object are unique). -/
theorem claim1_config_merge (flaskD caller : List (String × ConfigVal))
    (hF : ∀ p ∈ flaskD, strStarts p.1 "EA_" = false)
    (hFn : (flaskD.map Prod.fst).Nodup)
    (hCn : (caller.map Prod.fst).Nodup) :
    ∀ k v, (k, v) ∈ default_config →
      (List.lookup k caller = Option.none →
        List.lookup (nsKey k) (effective_config flaskD caller) = some v) ∧
      (∀ w, List.lookup k caller = some w →
        List.lookup (nsKey k) (effective_config flaskD caller) = some w) ∧
      List.lookup (nsKey k) (effective_config flaskD []) = some v := by
  intro k v hkv
  refine ⟨?_, ?_, ?_⟩
  · intro hc
    rw [effective_config_lookup flaskD caller hF hFn hCn k v hkv, hc]
    rfl
  · intro w hc
    rw [effective_config_lookup flaskD caller hF hFn hCn k v hkv, hc]
    rfl
  · rw [effective_config_lookup flaskD [] hF hFn (by simp) k v hkv]
    rfl

/-- Closed instances of claim C1: a caller override of `EA_PREFIX` wins over
the default, and with no caller configuration `bower_folder` is the default
`bower_components`. -/
theorem claim1_witness :
    List.lookup (nsKey "EA_PREFIX")
      (effective_config [("DEBUG", ConfigVal.bool false)]
        [("EA_PREFIX", ConfigVal.str "admin/")]) = some (ConfigVal.str "admin/") ∧
    List.lookup (nsKey "EA_BOWER_FOLDER")
      (effective_config [("DEBUG", ConfigVal.bool false)] []) =
      some (ConfigVal.str "bower_components") := by
  have h := claim1_config_merge [("DEBUG", ConfigVal.bool false)]
    [("EA_PREFIX", ConfigVal.str "admin/")] (by decide) (by decide) (by decide)
  constructor
  · exact (h "EA_PREFIX" (ConfigVal.str "") (by decide)).2.1 (ConfigVal.str "admin/") (by decide)
  · exact (h "EA_BOWER_FOLDER" (ConfigVal.str "bower_components") (by decide)).2.2
